import Mathlib

/-!
Shallow embedding of the deterministic core of the `world-engine`
narrative simulator (TypeScript) and proofs about it.

Modelling conventions:
* JavaScript numbers are modelled as rationals (`ℚ`); all constants in
  the source are decimal literals, so the arithmetic is exact.
* JavaScript objects and `Map`s are modelled as insertion-ordered
  association lists (`List (κ × β)`); `lookupA` is property read,
  `setA` is property write (overwrite in place, or append for a new
  key), matching JS semantics.  JS object keys are always distinct, so
  theorems about arbitrary states carry a `Nodup` hypothesis on keys
  where the iteration order of `Object.entries` matters.
* Ambient nondeterministic sources (`crypto.randomUUID()`,
  `Math.random()`, `Date.now()`) are modelled as explicit oracle
  streams passed in as parameters; no claim depends on their values.
-/

set_option autoImplicit false

namespace WorldEngine

/-- JS property read / `Map.get`: first entry with the given key. -/
def lookupA {κ β : Type} [DecidableEq κ] (k : κ) : List (κ × β) → Option β
  | [] => none
  | (k', v) :: t => if k' = k then some v else lookupA k t

/-- JS property write / `Map.set`: overwrite in place, append if absent. -/
def setA {κ β : Type} [DecidableEq κ] (k : κ) (v : β) : List (κ × β) → List (κ × β)
  | [] => [(k, v)]
  | (k', v') :: t => if k' = k then (k, v) :: t else (k', v') :: setA k v t

@[simp] theorem lookupA_nil {κ β : Type} [DecidableEq κ] (k : κ) :
    lookupA (β := β) k [] = none := rfl

@[simp] theorem lookupA_cons {κ β : Type} [DecidableEq κ] (k k' : κ) (v : β)
    (t : List (κ × β)) :
    lookupA k ((k', v) :: t) = if k' = k then some v else lookupA k t := rfl

theorem lookupA_setA_self {κ β : Type} [DecidableEq κ] (k : κ) (v : β)
    (l : List (κ × β)) : lookupA k (setA k v l) = some v := by
  induction l with
  | nil => simp [setA, lookupA]
  | cons h t ih =>
    obtain ⟨k', v'⟩ := h
    by_cases hk : k' = k
    · simp [setA, hk, lookupA]
    · simp [setA, hk, lookupA, ih]

theorem lookupA_setA_ne {κ β : Type} [DecidableEq κ] {k k' : κ} (v : β)
    (l : List (κ × β)) (hne : k' ≠ k) :
    lookupA k' (setA k v l) = lookupA k' l := by
  induction l with
  | nil => simp [setA, lookupA, Ne.symm hne]
  | cons h t ih =>
    obtain ⟨a, b⟩ := h
    by_cases ha : a = k
    · subst ha
      simp [setA, lookupA, Ne.symm hne]
    · simp [setA, ha, lookupA, ih]

theorem keys_setA_of_mem {κ β : Type} [DecidableEq κ] {k : κ} (v : β)
    {l : List (κ × β)} (hk : k ∈ l.map Prod.fst) :
    (setA k v l).map Prod.fst = l.map Prod.fst := by
  induction l with
  | nil => simp at hk
  | cons h t ih =>
    obtain ⟨a, b⟩ := h
    by_cases ha : a = k
    · simp [setA, ha]
    · simp only [List.map_cons] at hk
      have hk' : k ∈ t.map Prod.fst := by
        rcases List.mem_cons.mp hk with h1 | h2
        · exact absurd h1.symm ha
        · exact h2
      simp [setA, ha, ih hk']

theorem mem_setA {κ β : Type} [DecidableEq κ] {k a : κ} {v b : β}
    {l : List (κ × β)} (h : (a, b) ∈ setA k v l) :
    (a = k ∧ b = v) ∨ (a, b) ∈ l := by
  induction l with
  | nil =>
    simp [setA] at h
    exact Or.inl ⟨h.1, h.2⟩
  | cons hd t ih =>
    obtain ⟨k', v'⟩ := hd
    by_cases hk : k' = k
    · simp only [setA, if_pos hk, List.mem_cons] at h
      rcases h with h1 | h2
      · exact Or.inl ⟨congrArg Prod.fst h1, congrArg Prod.snd h1⟩
      · exact Or.inr (List.mem_cons_of_mem _ h2)
    · simp only [setA, if_neg hk, List.mem_cons] at h
      rcases h with h1 | h2
      · exact Or.inr (List.mem_cons.mpr (Or.inl h1))
      · rcases ih h2 with h3 | h4
        · exact Or.inl h3
        · exact Or.inr (List.mem_cons_of_mem _ h4)

/-- Lookup through a per-value map (keys untouched). -/
theorem lookupA_map_value {κ β γ : Type} [DecidableEq κ] (k : κ) (f : β → γ)
    (l : List (κ × β)) :
    lookupA k (l.map (fun p => (p.1, f p.2))) = (lookupA k l).map f := by
  induction l with
  | nil => simp [lookupA]
  | cons h t ih =>
    obtain ⟨a, b⟩ := h
    by_cases ha : a = k
    · simp [lookupA, ha]
    · simp [lookupA, ha, ih]

/-- `clamp(value, min, max)` from the source utility sections. -/
def clamp (value lo hi : ℚ) : ℚ := max lo (min hi value)

theorem clamp_eq_self {value lo hi : ℚ} (h1 : lo ≤ value) (h2 : value ≤ hi) :
    clamp value lo hi = value := by
  unfold clamp
  rw [min_eq_right h2, max_eq_right h1]

theorem clamp_mem {value lo hi : ℚ} (h : lo ≤ hi) :
    lo ≤ clamp value lo hi ∧ clamp value lo hi ≤ hi := by
  refine ⟨le_max_left _ _, ?_⟩
  exact max_le h (min_le_left _ _)

/-! ## Belief system (`src/modules/beliefSystem.ts`) -/

/-- One belief entry of a character. -/
structure Belief where
  proposition : String
  confidence : ℚ
  lastUpdatedTurn : ℤ
  sources : List String
  deriving DecidableEq

/-- A character's belief state (`beliefs` is a JS `Map`). -/
structure BeliefState where
  characterId : String
  beliefs : List (String × Belief)
  deriving DecidableEq

/-- How a character observes an event. -/
structure ObservationContext where
  observerId : String
  observerLocation : String
  attentionLevel : ℚ
  intelligence : ℚ
  deriving DecidableEq

/-- A world event that may be observed. -/
structure WorldEvent where
  id : String
  type : String
  actorId : String
  targetId : Option String
  location : String
  turn : ℤ
  visibility : ℚ
  deriving DecidableEq

/-- Event-to-proposition impact (likelihoods of the evidence). -/
structure PropositionImpact where
  proposition : String
  likelihoodIfTrue : ℚ
  likelihoodIfFalse : ℚ
  deriving DecidableEq

/-- `calculateObservability`: `visibility × distanceFactor × attention`,
clamped to `[0,1]`; the distance factor is `1.0` at the observer's
location and `0.3` elsewhere. -/
def calculateObservability (event : WorldEvent) (context : ObservationContext) : ℚ :=
  let distanceFactor : ℚ := if event.location = context.observerLocation then 1 else 0.3
  clamp (event.visibility * distanceFactor * context.attentionLevel) 0 1

/-- `isEventObserved`: deterministic threshold test (default `0.5`). -/
def isEventObserved (event : WorldEvent) (context : ObservationContext)
    (threshold : ℚ) : Bool :=
  decide (calculateObservability event context ≥ threshold)

/-- `bayesianUpdate`: posterior via Bayes' rule, prior kept when the
evidence term is exactly zero, result clamped to `[0,1]`. -/
def bayesianUpdate (prior likelihoodTrue likelihoodFalse : ℚ) : ℚ :=
  let evidence := likelihoodTrue * prior + likelihoodFalse * (1 - prior)
  if evidence = 0 then prior
  else clamp (likelihoodTrue * prior / evidence) 0 1

/-- `adjustForIntelligence`: flatten likelihoods toward `0.5`. -/
def adjustForIntelligence (likelihood intelligence : ℚ) : ℚ :=
  0.5 + (likelihood - 0.5) * intelligence

/-- `updateBeliefFromEvent`: no-op when unobserved, otherwise a
Bayesian update per proposition impact over the evolving belief map. -/
def updateBeliefFromEvent (state : BeliefState) (event : WorldEvent)
    (context : ObservationContext) (impacts : List PropositionImpact) : BeliefState :=
  if !isEventObserved event context 0.5 then state
  else
    { state with
      beliefs := impacts.foldl (fun newBeliefs impact =>
        let existing := lookupA impact.proposition newBeliefs
        let prior := (existing.map Belief.confidence).getD 0.5
        let adjustedLikelihoodTrue :=
          adjustForIntelligence impact.likelihoodIfTrue context.intelligence
        let adjustedLikelihoodFalse :=
          adjustForIntelligence impact.likelihoodIfFalse context.intelligence
        let posterior :=
          bayesianUpdate prior adjustedLikelihoodTrue adjustedLikelihoodFalse
        setA impact.proposition
          { proposition := impact.proposition
            confidence := posterior
            lastUpdatedTurn := event.turn
            sources := (existing.elim [] Belief.sources) ++ [event.id] }
          newBeliefs) state.beliefs }

/-- C2: `bayesianUpdate` computes `Lt·p / (Lt·p + Lf·(1−p))` on
probability inputs with nonzero evidence; `bayesianUpdate(0.5,0.8,0.2)
= 0.8`; equal likelihoods leave any prior in `[0,1]` unchanged; and a
zero evidence denominator returns the prior unchanged. -/
theorem C2_bayesianUpdate_spec :
    (∀ p lt lf : ℚ, 0 ≤ p → p ≤ 1 → 0 ≤ lt → 0 ≤ lf →
      lt * p + lf * (1 - p) ≠ 0 →
      bayesianUpdate p lt lf = lt * p / (lt * p + lf * (1 - p))) ∧
    bayesianUpdate 0.5 0.8 0.2 = 0.8 ∧
    (∀ p l : ℚ, 0 ≤ p → p ≤ 1 → bayesianUpdate p l l = p) ∧
    (∀ p lt lf : ℚ, lt * p + lf * (1 - p) = 0 → bayesianUpdate p lt lf = p) := by
  refine ⟨?_, ?_, ?_, ?_⟩
  · intro p lt lf hp0 hp1 hlt hlf hev
    have hnum : 0 ≤ lt * p := mul_nonneg hlt hp0
    have hrest : 0 ≤ lf * (1 - p) := mul_nonneg hlf (by linarith)
    have hevpos : 0 < lt * p + lf * (1 - p) :=
      lt_of_le_of_ne (by linarith) (Ne.symm hev)
    unfold bayesianUpdate
    rw [if_neg hev]
    exact clamp_eq_self (div_nonneg hnum (le_of_lt hevpos))
      ((div_le_one hevpos).mpr (by linarith))
  · norm_num [bayesianUpdate, clamp]
  · intro p l hp0 hp1
    by_cases hl : l = 0
    · subst hl
      simp [bayesianUpdate]
    · have hev : l * p + l * (1 - p) = l := by ring
      unfold bayesianUpdate
      rw [hev, if_neg hl]
      rw [show l * p / l = p by field_simp [hl]]
      exact clamp_eq_self hp0 hp1
  · intro p lt lf hev
    unfold bayesianUpdate
    rw [hev]
    simp

/-- Witness for C2 at concrete inputs. -/
theorem C2_bayesianUpdate_spec_witness :
    bayesianUpdate 0.9 0.3 0.4 = 0.3 * 0.9 / (0.3 * 0.9 + 0.4 * (1 - 0.9)) ∧
    bayesianUpdate 0.25 0.7 0.7 = 0.25 ∧
    bayesianUpdate 1 0 1 = 1 :=
  ⟨C2_bayesianUpdate_spec.1 0.9 0.3 0.4 (by norm_num) (by norm_num) (by norm_num)
      (by norm_num) (by norm_num),
    C2_bayesianUpdate_spec.2.2.1 0.25 0.7 (by norm_num) (by norm_num),
    C2_bayesianUpdate_spec.2.2.2 1 0 1 (by norm_num)⟩

/-- C9: when `visibility × locationFactor × attention < 0.5` (location
factor `1.0` on shared location, else `0.3`), `updateBeliefFromEvent`
returns its input belief state unchanged. -/
theorem C9_updateBeliefFromEvent_unobserved_noop
    (state : BeliefState) (event : WorldEvent) (context : ObservationContext)
    (impacts : List PropositionImpact)
    (h : event.visibility *
        (if event.location = context.observerLocation then (1 : ℚ) else 0.3) *
        context.attentionLevel < 0.5) :
    updateBeliefFromEvent state event context impacts = state := by
  have hobs : calculateObservability event context < 0.5 := by
    unfold calculateObservability clamp
    have hmin : min 1 (event.visibility *
        (if event.location = context.observerLocation then (1 : ℚ) else 0.3) *
        context.attentionLevel) ≤ event.visibility *
        (if event.location = context.observerLocation then (1 : ℚ) else 0.3) *
        context.attentionLevel := min_le_right _ _
    have : (0 : ℚ) < 0.5 := by norm_num
    exact max_lt this (lt_of_le_of_lt hmin h)
  have hfalse : isEventObserved event context 0.5 = false := by
    unfold isEventObserved
    simp only [decide_eq_false_iff_not]
    exact not_le.mpr hobs
  unfold updateBeliefFromEvent
  rw [hfalse]
  simp

/-- Witness for C9 at a concrete state and event. -/
theorem C9_updateBeliefFromEvent_unobserved_noop_witness :
    updateBeliefFromEvent ⟨"npc-1", []⟩
      ⟨"ev-1", "BATTLE", "npc-2", none, "plaza", 4, 0.4⟩
      ⟨"npc-1", "plaza", 1, 1⟩
      [⟨"war is coming", 0.9, 0.1⟩] = ⟨"npc-1", []⟩ :=
  C9_updateBeliefFromEvent_unobserved_noop _ _ _ _ (by norm_num)

/-! ## Social graph (`socialGraph` module, src/unnamed/part_004) -/

/-- A directed relationship edge. -/
structure Relationship where
  sourceId : String
  targetId : String
  trust : ℚ
  intimacy : ℚ
  interactions : ℕ
  lastInteractionTurn : ℤ
  deriving DecidableEq

/-- A character node with adjacency by relationship ids. -/
structure CharacterNode where
  id : String
  outgoingRelations : List String
  incomingRelations : List String
  deriving DecidableEq

/-- The social graph state (both fields are JS `Map`s). -/
structure SocialGraphState where
  nodes : List (String × CharacterNode)
  relationships : List (String × Relationship)
  deriving DecidableEq

/-- `createRelationshipId` (deterministic). -/
def createRelationshipId (sourceId targetId : String) : String :=
  sourceId ++ "->" ++ targetId

def TRUST_DECAY_RATE : ℚ := 0.02

def INTIMACY_DECAY_RATE : ℚ := 0.01

/-- The `delta` argument of `upsertRelationship` (optional fields). -/
structure RelationshipDelta where
  trust : Option ℚ
  intimacy : Option ℚ
  deriving DecidableEq

/-- The `upsertRelationship` step that records the relation id in the
source node's outgoing adjacency if the node exists and does not list
it yet. -/
def addOutgoingRelation (relationId sourceId : String)
    (nodes : List (String × CharacterNode)) : List (String × CharacterNode) :=
  match lookupA sourceId nodes with
  | some sourceNode =>
      if relationId ∈ sourceNode.outgoingRelations then nodes
      else setA sourceId
        { sourceNode with
          outgoingRelations := sourceNode.outgoingRelations ++ [relationId] }
        nodes
  | none => nodes

/-- The symmetric `upsertRelationship` step for the target node's
incoming adjacency. -/
def addIncomingRelation (relationId targetId : String)
    (nodes : List (String × CharacterNode)) : List (String × CharacterNode) :=
  match lookupA targetId nodes with
  | some targetNode =>
      if relationId ∈ targetNode.incomingRelations then nodes
      else setA targetId
        { targetNode with
          incomingRelations := targetNode.incomingRelations ++ [relationId] }
        nodes
  | none => nodes

theorem addOutgoingRelation_eq_self (relationId sourceId : String)
    (nodes : List (String × CharacterNode))
    (h : ∀ sn, lookupA sourceId nodes = some sn → relationId ∈ sn.outgoingRelations) :
    addOutgoingRelation relationId sourceId nodes = nodes := by
  unfold addOutgoingRelation
  cases hs : lookupA sourceId nodes with
  | none => rfl
  | some sn => simp [h sn hs]

theorem addIncomingRelation_eq_self (relationId targetId : String)
    (nodes : List (String × CharacterNode))
    (h : ∀ tn, lookupA targetId nodes = some tn → relationId ∈ tn.incomingRelations) :
    addIncomingRelation relationId targetId nodes = nodes := by
  unfold addIncomingRelation
  cases hs : lookupA targetId nodes with
  | none => rfl
  | some tn => simp [h tn hs]

/-- `upsertRelationship`: create or update an edge (clamping both
weights, incrementing the interaction count, stamping the turn) and
keep both endpoints' adjacency lists containing the relation id. -/
def upsertRelationship (graph : SocialGraphState) (sourceId targetId : String)
    (delta : RelationshipDelta) (currentTurn : ℤ) : SocialGraphState :=
  let relationId := createRelationshipId sourceId targetId
  let existing := lookupA relationId graph.relationships
  let newRelationship : Relationship :=
    match existing with
    | some ex =>
        { ex with
          trust := clamp (ex.trust + delta.trust.getD 0) (-1) 1
          intimacy := clamp (ex.intimacy + delta.intimacy.getD 0) 0 1
          interactions := ex.interactions + 1
          lastInteractionTurn := currentTurn }
    | none =>
        { sourceId := sourceId
          targetId := targetId
          trust := clamp (delta.trust.getD 0) (-1) 1
          intimacy := clamp (delta.intimacy.getD 0) 0 1
          interactions := 1
          lastInteractionTurn := currentTurn }
  let newRelationships := setA relationId newRelationship graph.relationships
  let nodes1 := addOutgoingRelation relationId sourceId graph.nodes
  let nodes2 := addIncomingRelation relationId targetId nodes1
  { nodes := nodes2, relationships := newRelationships }

/-- The per-edge body of the `decayRelationships` loop. -/
def decayRel (currentTurn : ℤ) (rel : Relationship) : Relationship :=
  { rel with
    trust := clamp (rel.trust *
      (1 - TRUST_DECAY_RATE) ^ (currentTurn - rel.lastInteractionTurn)) (-1) 1
    intimacy := clamp (rel.intimacy *
      (1 - INTIMACY_DECAY_RATE) ^ (currentTurn - rel.lastInteractionTurn)) 0 1 }

/-- `decayRelationships`: exponential decay of every edge proportional
to turns since last interaction (a fresh `Map` is filled entry by
entry, i.e. a per-entry transform). -/
def decayRelationships (graph : SocialGraphState) (currentTurn : ℤ) : SocialGraphState :=
  { graph with
    relationships := graph.relationships.map (fun p => (p.1, decayRel currentTurn p.2)) }

/-- Concrete two-node graph with one edge, used for C7. -/
def c7Graph : SocialGraphState :=
  { nodes := [("A", ⟨"A", ["A->B"], []⟩), ("B", ⟨"B", [], ["A->B"]⟩)]
    relationships := [("A->B", ⟨"A", "B", 0.5, 0.2, 3, 1⟩)] }

/-- C7 counterexample: `upsertRelationship` with both deltas zero on an
existing edge does not leave the interaction count unchanged — it
increments it from 3 to 4. -/
theorem C7_upsert_zero_delta_counterexample :
    (lookupA "A->B"
        (upsertRelationship c7Graph "A" "B" ⟨some 0, some 0⟩ 5).relationships).map
        Relationship.interactions = some 4 ∧
    (lookupA "A->B" c7Graph.relationships).map Relationship.interactions = some 3 ∧
    (lookupA "A->B"
        (upsertRelationship c7Graph "A" "B" ⟨some 0, some 0⟩ 5).relationships).map
        Relationship.interactions ≠
      (lookupA "A->B" c7Graph.relationships).map Relationship.interactions := by
  refine ⟨?_, ?_, ?_⟩ <;> decide

/-- C7 (amended): on an existing in-range edge whose id both endpoint
nodes already list, a zero-delta upsert refreshes the last-interaction
turn and increments the interaction count; trust, intimacy and the
endpoints are unchanged, every other relationship is unchanged, and the
node table is unchanged. -/
theorem C7_upsert_zero_delta_amended
    (graph : SocialGraphState) (sourceId targetId : String)
    (delta : RelationshipDelta) (currentTurn : ℤ) (ex : Relationship)
    (hex : lookupA (createRelationshipId sourceId targetId) graph.relationships = some ex)
    (hdt : delta.trust.getD 0 = 0) (hdi : delta.intimacy.getD 0 = 0)
    (ht1 : -1 ≤ ex.trust) (ht2 : ex.trust ≤ 1)
    (hi1 : 0 ≤ ex.intimacy) (hi2 : ex.intimacy ≤ 1)
    (hsrc : ∀ sn, lookupA sourceId graph.nodes = some sn →
      createRelationshipId sourceId targetId ∈ sn.outgoingRelations)
    (htgt : ∀ tn, lookupA targetId graph.nodes = some tn →
      createRelationshipId sourceId targetId ∈ tn.incomingRelations) :
    (upsertRelationship graph sourceId targetId delta currentTurn).nodes = graph.nodes ∧
    lookupA (createRelationshipId sourceId targetId)
        (upsertRelationship graph sourceId targetId delta currentTurn).relationships =
      some { ex with interactions := ex.interactions + 1,
                     lastInteractionTurn := currentTurn } ∧
    ∀ k, k ≠ createRelationshipId sourceId targetId →
      lookupA k (upsertRelationship graph sourceId targetId delta currentTurn).relationships =
        lookupA k graph.relationships := by
  have hrel : ({ ex with
      trust := clamp (ex.trust + delta.trust.getD 0) (-1) 1
      intimacy := clamp (ex.intimacy + delta.intimacy.getD 0) 0 1
      interactions := ex.interactions + 1
      lastInteractionTurn := currentTurn } : Relationship) =
      { ex with interactions := ex.interactions + 1, lastInteractionTurn := currentTurn } := by
    rw [hdt, hdi, add_zero, add_zero, clamp_eq_self ht1 ht2, clamp_eq_self hi1 hi2]
  simp only [upsertRelationship, hex, hrel,
    addOutgoingRelation_eq_self _ _ _ hsrc,
    addIncomingRelation_eq_self _ _ _ htgt]
  refine ⟨trivial, lookupA_setA_self _ _ _, ?_⟩
  intro k hk
  exact lookupA_setA_ne _ _ hk

/-- Witness for the amended C7 on the concrete graph. -/
theorem C7_upsert_zero_delta_amended_witness :
    (upsertRelationship c7Graph "A" "B" ⟨some 0, some 0⟩ 5).nodes = c7Graph.nodes ∧
    lookupA "A->B"
        (upsertRelationship c7Graph "A" "B" ⟨some 0, some 0⟩ 5).relationships =
      some ⟨"A", "B", 0.5, 0.2, 3 + 1, 5⟩ := by
  have h := C7_upsert_zero_delta_amended c7Graph "A" "B" ⟨some 0, some 0⟩ 5
    ⟨"A", "B", 0.5, 0.2, 3, 1⟩
    (by simp [c7Graph, createRelationshipId, lookupA]) rfl rfl (by norm_num) (by norm_num)
    (by norm_num) (by norm_num)
    (by
      intro sn hsn
      have h3 : lookupA "A" c7Graph.nodes = some (⟨"A", ["A->B"], []⟩ : CharacterNode) := by
        simp [c7Graph, lookupA]
      rw [h3] at hsn
      rw [← Option.some.inj hsn]
      simp [createRelationshipId])
    (by
      intro tn htn
      have h3 : lookupA "B" c7Graph.nodes = some (⟨"B", [], ["A->B"]⟩ : CharacterNode) := by
        simp [c7Graph, lookupA]
      rw [h3] at htn
      rw [← Option.some.inj htn]
      simp [createRelationshipId])
  exact ⟨h.1, h.2.1⟩

/-- C8: for an in-range edge and `currentTurn` at or after its last
interaction, decay multiplies trust by `0.98^Δ` and intimacy by
`0.99^Δ`; the trust magnitude never grows, its sign never flips, and
intimacy only shrinks. -/
theorem C8_decayRelationships_spec
    (graph : SocialGraphState) (currentTurn : ℤ) (relId : String) (rel : Relationship)
    (hrel : lookupA relId graph.relationships = some rel)
    (hturn : rel.lastInteractionTurn ≤ currentTurn)
    (ht1 : -1 ≤ rel.trust) (ht2 : rel.trust ≤ 1)
    (hi1 : 0 ≤ rel.intimacy) (hi2 : rel.intimacy ≤ 1) :
    ∃ rel', lookupA relId (decayRelationships graph currentTurn).relationships = some rel' ∧
      rel'.trust = rel.trust *
        (1 - TRUST_DECAY_RATE) ^ (currentTurn - rel.lastInteractionTurn) ∧
      rel'.intimacy = rel.intimacy *
        (1 - INTIMACY_DECAY_RATE) ^ (currentTurn - rel.lastInteractionTurn) ∧
      |rel'.trust| ≤ |rel.trust| ∧
      (0 ≤ rel.trust → 0 ≤ rel'.trust) ∧
      (rel.trust ≤ 0 → rel'.trust ≤ 0) ∧
      rel'.intimacy ≤ rel.intimacy := by
  obtain ⟨n, hn⟩ := Int.le.dest hturn
  have hΔ : currentTurn - rel.lastInteractionTurn = (n : ℤ) := by omega
  have hqt0 : (0 : ℚ) ≤ 1 - TRUST_DECAY_RATE := by norm_num [TRUST_DECAY_RATE]
  have hqt1 : (1 - TRUST_DECAY_RATE : ℚ) ≤ 1 := by norm_num [TRUST_DECAY_RATE]
  have hqi0 : (0 : ℚ) ≤ 1 - INTIMACY_DECAY_RATE := by norm_num [INTIMACY_DECAY_RATE]
  have hqi1 : (1 - INTIMACY_DECAY_RATE : ℚ) ≤ 1 := by norm_num [INTIMACY_DECAY_RATE]
  have hzt : (1 - TRUST_DECAY_RATE : ℚ) ^ (currentTurn - rel.lastInteractionTurn) =
      (1 - TRUST_DECAY_RATE : ℚ) ^ n := by rw [hΔ, zpow_natCast]
  have hzi : (1 - INTIMACY_DECAY_RATE : ℚ) ^ (currentTurn - rel.lastInteractionTurn) =
      (1 - INTIMACY_DECAY_RATE : ℚ) ^ n := by rw [hΔ, zpow_natCast]
  have hpt0 : (0 : ℚ) ≤ (1 - TRUST_DECAY_RATE : ℚ) ^ n := pow_nonneg hqt0 n
  have hpt1 : (1 - TRUST_DECAY_RATE : ℚ) ^ n ≤ 1 := pow_le_one₀ hqt0 hqt1
  have hpi0 : (0 : ℚ) ≤ (1 - INTIMACY_DECAY_RATE : ℚ) ^ n := pow_nonneg hqi0 n
  have hpi1 : (1 - INTIMACY_DECAY_RATE : ℚ) ^ n ≤ 1 := pow_le_one₀ hqi0 hqi1
  have htabs : |rel.trust *
      (1 - TRUST_DECAY_RATE : ℚ) ^ (currentTurn - rel.lastInteractionTurn)| ≤ |rel.trust| := by
    rw [hzt, abs_mul, abs_of_nonneg hpt0]
    exact mul_le_of_le_one_right (abs_nonneg _) hpt1
  have htrange : |rel.trust *
      (1 - TRUST_DECAY_RATE : ℚ) ^ (currentTurn - rel.lastInteractionTurn)| ≤ 1 :=
    le_trans htabs (abs_le.mpr ⟨ht1, ht2⟩)
  have hiv0 : 0 ≤ rel.intimacy *
      (1 - INTIMACY_DECAY_RATE : ℚ) ^ (currentTurn - rel.lastInteractionTurn) := by
    rw [hzi]
    exact mul_nonneg hi1 hpi0
  have hile : rel.intimacy *
      (1 - INTIMACY_DECAY_RATE : ℚ) ^ (currentTurn - rel.lastInteractionTurn) ≤
      rel.intimacy := by
    rw [hzi]
    exact mul_le_of_le_one_right hi1 hpi1
  have htr' : (decayRel currentTurn rel).trust = rel.trust *
      (1 - TRUST_DECAY_RATE : ℚ) ^ (currentTurn - rel.lastInteractionTurn) := by
    unfold decayRel
    exact clamp_eq_self (abs_le.mp htrange).1 (abs_le.mp htrange).2
  have hin' : (decayRel currentTurn rel).intimacy = rel.intimacy *
      (1 - INTIMACY_DECAY_RATE : ℚ) ^ (currentTurn - rel.lastInteractionTurn) := by
    unfold decayRel
    exact clamp_eq_self hiv0 (le_trans hile hi2)
  refine ⟨decayRel currentTurn rel, ?_, htr', hin', ?_, ?_, ?_, ?_⟩
  · unfold decayRelationships
    rw [lookupA_map_value, hrel]
    rfl
  · rw [htr']
    exact htabs
  · intro h0
    rw [htr', hzt]
    exact mul_nonneg h0 hpt0
  · intro h0
    rw [htr', hzt]
    exact mul_nonpos_iff.mpr (Or.inr ⟨h0, hpt0⟩)
  · rw [hin']
    exact hile

/-- Witness for C8 on a concrete graph two turns after the last
interaction. -/
theorem C8_decayRelationships_spec_witness :
    ∃ rel', lookupA "A->B"
        (decayRelationships
          ⟨[], [("A->B", ⟨"A", "B", -(1/2), 1/2, 2, 3⟩)]⟩ 5).relationships = some rel' ∧
      rel'.trust = -(1/2) * (1 - TRUST_DECAY_RATE) ^ ((5 : ℤ) - 3) ∧
      rel'.intimacy = (1/2) * (1 - INTIMACY_DECAY_RATE) ^ ((5 : ℤ) - 3) ∧
      |rel'.trust| ≤ |(-(1/2) : ℚ)| ∧
      ((0 : ℚ) ≤ -(1/2) → 0 ≤ rel'.trust) ∧
      (-(1/2) ≤ (0 : ℚ) → rel'.trust ≤ 0) ∧
      rel'.intimacy ≤ 1/2 :=
  C8_decayRelationships_spec ⟨[], [("A->B", ⟨"A", "B", -(1/2), 1/2, 2, 3⟩)]⟩ 5 "A->B"
    ⟨"A", "B", -(1/2), 1/2, 2, 3⟩ (by simp [lookupA]) (by norm_num) (by norm_num)
    (by norm_num) (by norm_num) (by norm_num)

/-! ## Shared data model (`src/core/types.ts`) -/

inductive MeaningType where
  | FEAR
  | TRUST
  | RESPECT
  deriving DecidableEq

inductive ActionTag where
  | RISKY
  | SAFE
  | SOCIAL
  | AGGRESSIVE
  | PASSIVE
  | NEUTRAL
  deriving DecidableEq

inductive ActionType where
  | MOVE
  | SPEAK
  | WAIT
  | ATTACK
  deriving DecidableEq

/-- An action proposal (`targetId` is optional). -/
structure Action where
  actorId : String
  targetId : Option String
  type : ActionType
  tags : List ActionTag
  deriving DecidableEq

/-- `ActionLog extends Action` with `id` and `timestamp`; fields are
flattened here.  A field absent from an object literal is `none`. -/
structure ActionLog where
  actorId : String
  targetId : Option String
  type : ActionType
  tags : List ActionTag
  id : String
  timestamp : ℤ
  deriving DecidableEq

/-- The audience scope of a meaning event (optional fields). -/
structure Audience where
  factionIds : Option (List String)
  locationIds : Option (List String)
  deriving DecidableEq

structure MeaningEvent where
  id : String
  sourceLogIds : List String
  type : MeaningType
  intensity : ℚ
  audience : Audience
  deriving DecidableEq

inductive EchoTone where
  | positive
  | negative
  | ambiguous
  deriving DecidableEq

structure EchoScope where
  factionId : Option String
  locationId : Option String
  deriving DecidableEq

structure Echo where
  id : String
  originMeaningId : String
  tone : EchoTone
  distortion : ℚ
  ttl : ℤ
  scope : EchoScope
  deriving DecidableEq

inductive ChronicleScope where
  | LOCAL
  | REGIONAL
  | GLOBAL
  deriving DecidableEq

structure ChronicleEntry where
  id : String
  year : ℤ
  summary : String
  derivedMeaningIds : List String
  scope : ChronicleScope
  deriving DecidableEq

/-! ## Chronicle / pressure feedback loop (`src/core/chronicle-pressure.ts`) -/

structure WorldTendency where
  tag : ActionTag
  weight : ℚ
  deriving DecidableEq

/-- `ExtendedWorldState` (the base `WorldState` fields are flattened
in).  `meaningPressure` is a `Record<MeaningType, number>` and
`lastChronicleTurn` a partial record, both modelled as insertion-ordered
association lists. -/
structure ExtendedWorldState where
  year : ℤ
  turn : ℤ
  logs : List ActionLog
  meanings : List MeaningEvent
  echoes : List Echo
  chronicles : List ChronicleEntry
  tendency : List WorldTendency
  meaningPressure : List (MeaningType × ℚ)
  lastChronicleTurn : List (MeaningType × ℤ)
  deriving DecidableEq

/-- `accumulateMeaningPressure`: each event's intensity adds to its
type's running pressure (absent entries count as 0). -/
def accumulateMeaningPressure (world : ExtendedWorldState)
    (meanings : List MeaningEvent) : ExtendedWorldState :=
  { world with
    meaningPressure := meanings.foldl (fun pressure m =>
      setA m.type ((lookupA m.type pressure).getD 0 + m.intensity) pressure)
      world.meaningPressure }

def CHRONICLE_THRESHOLD : ℚ := 2.0

def MIN_CHRONICLE_GAP : ℤ := 3

/-- `type.toLowerCase()` of a meaning type's name. -/
def meaningTypeLower : MeaningType → String
  | .FEAR => "fear"
  | .TRUST => "trust"
  | .RESPECT => "respect"

/-- The summary template of an emitted chronicle entry. -/
def chronicleSummary (type : MeaningType) : String :=
  "An era shaped by " ++ meaningTypeLower type ++ "."

/-- `canEmit`: pressure at threshold and cooldown elapsed.  A type with
no recorded chronicle turn reads as `-Infinity`, so the gap condition
holds vacuously. -/
def canEmitChronicle (turn : ℤ) (value : ℚ) (last : Option ℤ) : Bool :=
  decide (value ≥ CHRONICLE_THRESHOLD) &&
    match last with
    | none => true
    | some l => decide (turn - l ≥ MIN_CHRONICLE_GAP)

/-- One iteration of the `generateChronicleFromPressure` loop over the
snapshot of pressure entries; the accumulator carries the mutated
pressure map, last-chronicle map and emitted entries. -/
def mkChronicleEntry (uuid : ℕ → String) (n : ℕ) (year : ℤ) (τ : MeaningType) :
    ChronicleEntry :=
  { id := uuid n
    year := year
    summary := chronicleSummary τ
    derivedMeaningIds := []
    scope := ChronicleScope.LOCAL }

def chronicleStep (turn year : ℤ) (uuid : ℕ → String)
    (acc : List (MeaningType × ℚ) × List (MeaningType × ℤ) × List ChronicleEntry)
    (e : MeaningType × ℚ) :
    List (MeaningType × ℚ) × List (MeaningType × ℤ) × List ChronicleEntry :=
  if canEmitChronicle turn e.2 (lookupA e.1 acc.2.1) then
    (setA e.1 (e.2 * 0.4) acc.1,
      setA e.1 turn acc.2.1,
      acc.2.2 ++ [mkChronicleEntry uuid acc.2.2.length year e.1])
  else acc

/-- `generateChronicleFromPressure`: emit a chronicle for every type
over threshold and off cooldown, decaying (not zeroing) its pressure by
`0.4` and recording the emission turn. -/
def generateChronicleFromPressure (uuid : ℕ → String) (world : ExtendedWorldState) :
    ExtendedWorldState × List ChronicleEntry :=
  let res := world.meaningPressure.foldl (chronicleStep world.turn world.year uuid)
    (world.meaningPressure, world.lastChronicleTurn, [])
  ({ world with meaningPressure := res.1, lastChronicleTurn := res.2.1 }, res.2.2)

def TENDENCY_MIN : ℚ := -0.6

def TENDENCY_MAX : ℚ := 0.6

/-- The initial tag-weight map of `applyChronicleTendency`: existing
tendency entries summed per tag, insertion-ordered. -/
def buildTagMap (tendency : List WorldTendency) : List (ActionTag × ℚ) :=
  tendency.foldl (fun map t =>
    setA t.tag ((lookupA t.tag map).getD 0 + t.weight) map) []

/-- The `adjust` closure: additive update clamped to the tendency
range. -/
def adjustTag (map : List (ActionTag × ℚ)) (tag : ActionTag) (delta : ℚ) :
    List (ActionTag × ℚ) :=
  setA tag (max TENDENCY_MIN (min TENDENCY_MAX ((lookupA tag map).getD 0 + delta))) map

/-- Character-list prefix test (used for JS `String.includes`). -/
def isPrefixL : List Char → List Char → Bool
  | [], _ => true
  | _ :: _, [] => false
  | p :: ps, c :: cs => decide (p = c) && isPrefixL ps cs

/-- Substring occurrence on character lists. -/
def containsSub (pat : List Char) : List Char → Bool
  | [] => isPrefixL pat []
  | c :: t => isPrefixL pat (c :: t) || containsSub pat t

/-- JS `String.toLowerCase` (ASCII, as used on the summary strings). -/
def toLowerString (s : String) : String := String.mk (s.data.map Char.toLower)

/-- JS `s.includes(pat)`. -/
def strIncludes (s pat : String) : Bool := containsSub pat.data s.data

/-- The `if (lower.includes('fear'))` step of the per-chronicle
tendency loop. -/
def applyFearCheck (map : List (ActionTag × ℚ)) (c : ChronicleEntry) :
    List (ActionTag × ℚ) :=
  if strIncludes (toLowerString c.summary) "fear" then
    adjustTag (adjustTag map .RISKY (-0.10)) .SAFE 0.08
  else map

/-- The `if (lower.includes('trust'))` step. -/
def applyTrustCheck (map : List (ActionTag × ℚ)) (c : ChronicleEntry) :
    List (ActionTag × ℚ) :=
  if strIncludes (toLowerString c.summary) "trust" then
    adjustTag (adjustTag map .SOCIAL 0.08) .PASSIVE (-0.04)
  else map

/-- The `if (lower.includes('respect'))` step. -/
def applyRespectCheck (map : List (ActionTag × ℚ)) (c : ChronicleEntry) :
    List (ActionTag × ℚ) :=
  if strIncludes (toLowerString c.summary) "respect" then
    adjustTag map .AGGRESSIVE 0.05
  else map

/-- The per-chronicle body of the `applyChronicleTendency` loop: the
three independent substring checks on the lowercased summary, in
source order. -/
def applyOneChronicle (map : List (ActionTag × ℚ)) (c : ChronicleEntry) :
    List (ActionTag × ℚ) :=
  applyRespectCheck (applyTrustCheck (applyFearCheck map c) c) c

/-- `applyChronicleTendency`: chronicles nudge a fixed set of tag
weights, cumulatively, each update clamped to `[-0.6, 0.6]`. -/
def applyChronicleTendency (world : ExtendedWorldState)
    (chronicles : List ChronicleEntry) : ExtendedWorldState :=
  if chronicles = [] then world
  else
    { world with
      tendency := (chronicles.foldl applyOneChronicle (buildTagMap world.tendency)).map
        (fun p => { tag := p.1, weight := p.2 }) }

/-- `inclineActionProbability`: base plus summed tendency weights of
the action's tags, floored at `0.05`. -/
def inclineActionProbability (base : ℚ) (tags : List ActionTag)
    (world : ExtendedWorldState) : ℚ :=
  let modifier := tags.foldl (fun m t =>
    match world.tendency.find? (fun x => decide (x.tag = t)) with
    | some influence => m + influence.weight
    | none => m) 0
  max 0.05 (base + modifier)

def TONE_FACTOR : EchoTone → ℚ
  | .positive => 0.6
  | .negative => 1.0
  | .ambiguous => 0.3

def DECAY_SENSITIVITY : List (MeaningType × ℚ) :=
  [(.FEAR, 0.8), (.TRUST, 0.6), (.RESPECT, 0.5)]

/-- `DECAY_SENSITIVITY[type] ?? 0.7`. -/
def echoSensitivity (type : MeaningType) : ℚ :=
  (lookupA type DECAY_SENSITIVITY).getD 0.7

/-- The inner loop of `applyEchoToPressure` for one echo: every entry
of the pressure snapshot is re-inflated in place. -/
def applyEchoOnce (tone : EchoTone) (pressure : List (MeaningType × ℚ)) :
    List (MeaningType × ℚ) :=
  pressure.foldl (fun acc e =>
    setA e.1 (e.2 + e.2 * TONE_FACTOR tone * echoSensitivity e.1 * 0.1) acc) pressure

/-- `applyEchoToPressure`: every live echo amplifies every existing
pressure entry; echoes never create entries. -/
def applyEchoToPressure (world : ExtendedWorldState) : ExtendedWorldState :=
  { world with
    meaningPressure := world.echoes.foldl (fun pressure echo =>
      applyEchoOnce echo.tone pressure) world.meaningPressure }

/-! ## Association-list fold lemmas shared by the pressure proofs -/

theorem lookupA_mem {κ β : Type} [DecidableEq κ] {k : κ} {v : β} {l : List (κ × β)}
    (h : lookupA k l = some v) : (k, v) ∈ l := by
  induction l with
  | nil => simp [lookupA] at h
  | cons hd t ih =>
    obtain ⟨a, b⟩ := hd
    by_cases ha : a = k
    · subst ha
      rw [lookupA_cons, if_pos rfl] at h
      rw [← Option.some.inj h]
      exact List.mem_cons_self _ _
    · rw [lookupA_cons, if_neg ha] at h
      exact List.mem_cons_of_mem _ (ih h)

theorem lookupA_eq_none_iff {κ β : Type} [DecidableEq κ] {k : κ} {l : List (κ × β)} :
    lookupA k l = none ↔ k ∉ l.map Prod.fst := by
  induction l with
  | nil => simp [lookupA]
  | cons hd t ih =>
    obtain ⟨a, b⟩ := hd
    by_cases ha : a = k
    · subst ha
      simp [lookupA]
    · simp [lookupA, ha, ih, Ne.symm ha]

theorem foldl_setA_lookup_notMem {κ β : Type} [DecidableEq κ] (f : κ → β → β)
    (es : List (κ × β)) (acc : List (κ × β)) (τ : κ) (h : τ ∉ es.map Prod.fst) :
    lookupA τ (es.foldl (fun a e => setA e.1 (f e.1 e.2) a) acc) = lookupA τ acc := by
  induction es generalizing acc with
  | nil => rfl
  | cons e rest ih =>
    simp only [List.map_cons, List.mem_cons, not_or] at h
    rw [List.foldl_cons, ih _ h.2, lookupA_setA_ne _ _ h.1]

theorem foldl_setA_lookup_mem {κ β : Type} [DecidableEq κ] (f : κ → β → β)
    (es acc : List (κ × β)) (τ : κ) (v : β)
    (hnd : (es.map Prod.fst).Nodup) (hmem : (τ, v) ∈ es) :
    lookupA τ (es.foldl (fun a e => setA e.1 (f e.1 e.2) a) acc) = some (f τ v) := by
  induction es generalizing acc with
  | nil => simp at hmem
  | cons e rest ih =>
    simp only [List.map_cons, List.nodup_cons] at hnd
    rw [List.foldl_cons]
    rcases List.mem_cons.mp hmem with h1 | h2
    · subst h1
      rw [foldl_setA_lookup_notMem f rest _ τ hnd.1]
      exact lookupA_setA_self _ _ _
    · exact ih _ hnd.2 h2

theorem foldl_setA_keys {κ β : Type} [DecidableEq κ] (f : κ → β → β)
    (es acc : List (κ × β)) (h : ∀ e ∈ es, e.1 ∈ acc.map Prod.fst) :
    (es.foldl (fun a e => setA e.1 (f e.1 e.2) a) acc).map Prod.fst = acc.map Prod.fst := by
  induction es generalizing acc with
  | nil => rfl
  | cons e rest ih =>
    rw [List.foldl_cons]
    have h1 : e.1 ∈ acc.map Prod.fst := h e (List.mem_cons_self _ _)
    have hkeys := keys_setA_of_mem (f e.1 e.2) h1
    have hrest : ∀ e' ∈ rest, e'.1 ∈ (setA e.1 (f e.1 e.2) acc).map Prod.fst := by
      intro e' he'
      rw [hkeys]
      exact h e' (List.mem_cons_of_mem _ he')
    rw [ih _ hrest, hkeys]

/-! ## C3: echo amplification -/

theorem applyEchoOnce_lookup_mem (tone : EchoTone) (pressure : List (MeaningType × ℚ))
    (τ : MeaningType) (v : ℚ) (hnd : (pressure.map Prod.fst).Nodup)
    (hmem : (τ, v) ∈ pressure) :
    lookupA τ (applyEchoOnce tone pressure) =
      some (v + v * TONE_FACTOR tone * echoSensitivity τ * 0.1) :=
  foldl_setA_lookup_mem
    (fun k w => w + w * TONE_FACTOR tone * echoSensitivity k * 0.1)
    pressure pressure τ v hnd hmem

theorem applyEchoOnce_keys (tone : EchoTone) (pressure : List (MeaningType × ℚ)) :
    (applyEchoOnce tone pressure).map Prod.fst = pressure.map Prod.fst :=
  foldl_setA_keys
    (fun k w => w + w * TONE_FACTOR tone * echoSensitivity k * 0.1)
    pressure pressure (fun _e he => List.mem_map_of_mem Prod.fst he)

/-- The total gain factor a pressure entry of type `τ` picks up from a
list of echoes (one multiplicative factor per echo). -/
def echoGain (τ : MeaningType) (echoes : List Echo) : ℚ :=
  (echoes.map (fun e => 1 + TONE_FACTOR e.tone * echoSensitivity τ * 0.1)).prod

theorem echoFold_keys (echoes : List Echo) (p : List (MeaningType × ℚ)) :
    ((echoes.foldl (fun pressure echo => applyEchoOnce echo.tone pressure) p).map
      Prod.fst) = p.map Prod.fst := by
  induction echoes generalizing p with
  | nil => rfl
  | cons echo rest ih => rw [List.foldl_cons, ih, applyEchoOnce_keys]

theorem echoFold_lookup (echoes : List Echo) (p : List (MeaningType × ℚ))
    (hnd : (p.map Prod.fst).Nodup) (τ : MeaningType) (v : ℚ)
    (hv : lookupA τ p = some v) :
    lookupA τ (echoes.foldl (fun pressure echo => applyEchoOnce echo.tone pressure) p) =
      some (v * echoGain τ echoes) := by
  induction echoes generalizing p v with
  | nil =>
    simp only [List.foldl_nil, echoGain, List.map_nil, List.prod_nil, mul_one]
    exact hv
  | cons echo rest ih =>
    rw [List.foldl_cons]
    have hstep := applyEchoOnce_lookup_mem echo.tone p τ v hnd (lookupA_mem hv)
    have hnd' : ((applyEchoOnce echo.tone p).map Prod.fst).Nodup := by
      rw [applyEchoOnce_keys]
      exact hnd
    have := ih (applyEchoOnce echo.tone p) hnd'
      (v + v * TONE_FACTOR echo.tone * echoSensitivity τ * 0.1) hstep
    rw [this]
    congr 1
    simp only [echoGain, List.map_cons, List.prod_cons]
    ring

/-- C3: each live echo re-inflates every existing pressure entry by
`pressure × toneFactor(tone) × sensitivity(type) × 0.1`, compounding
once per echo; echoes never create a pressure entry. -/
theorem C3_applyEchoToPressure_spec (world : ExtendedWorldState)
    (hnd : (world.meaningPressure.map Prod.fst).Nodup) :
    ((applyEchoToPressure world).meaningPressure.map Prod.fst =
      world.meaningPressure.map Prod.fst) ∧
    (∀ τ v, lookupA τ world.meaningPressure = some v →
      lookupA τ (applyEchoToPressure world).meaningPressure =
        some (v * echoGain τ world.echoes)) ∧
    (∀ τ, lookupA τ world.meaningPressure = none →
      lookupA τ (applyEchoToPressure world).meaningPressure = none) ∧
    (∀ echo τ v, world.echoes = [echo] →
      lookupA τ world.meaningPressure = some v →
      lookupA τ (applyEchoToPressure world).meaningPressure =
        some (v + v * TONE_FACTOR echo.tone * echoSensitivity τ * 0.1)) := by
  refine ⟨echoFold_keys _ _, ?_, ?_, ?_⟩
  · intro τ v hv
    exact echoFold_lookup world.echoes world.meaningPressure hnd τ v hv
  · intro τ hv
    rw [lookupA_eq_none_iff] at hv ⊢
    show τ ∉ (world.echoes.foldl (fun pressure echo => applyEchoOnce echo.tone pressure)
      world.meaningPressure).map Prod.fst
    rw [echoFold_keys]
    exact hv
  · intro echo τ v hech hv
    have h := echoFold_lookup world.echoes world.meaningPressure hnd τ v hv
    show lookupA τ (world.echoes.foldl (fun pressure echo => applyEchoOnce echo.tone pressure)
      world.meaningPressure) = _
    rw [h, hech]
    congr 1
    simp only [echoGain, List.map_cons, List.map_nil, List.prod_cons, List.prod_nil, mul_one]
    ring

/-! ## C1: chronicle emission from pressure -/

theorem chronicleFold_spec (turn year : ℤ) (uuid : ℕ → String)
    (es p0 : List (MeaningType × ℚ)) (l0 : List (MeaningType × ℤ))
    (cs0 : List ChronicleEntry) (hnd : (es.map Prod.fst).Nodup) :
    (∀ τ, τ ∉ es.map Prod.fst →
      lookupA τ (es.foldl (chronicleStep turn year uuid) (p0, l0, cs0)).1 = lookupA τ p0 ∧
      lookupA τ (es.foldl (chronicleStep turn year uuid) (p0, l0, cs0)).2.1 = lookupA τ l0) ∧
    (∀ τ v, (τ, v) ∈ es →
      (canEmitChronicle turn v (lookupA τ l0) = true →
        lookupA τ (es.foldl (chronicleStep turn year uuid) (p0, l0, cs0)).1 =
          some (v * 0.4) ∧
        lookupA τ (es.foldl (chronicleStep turn year uuid) (p0, l0, cs0)).2.1 =
          some turn) ∧
      (canEmitChronicle turn v (lookupA τ l0) = false →
        lookupA τ (es.foldl (chronicleStep turn year uuid) (p0, l0, cs0)).1 =
          lookupA τ p0 ∧
        lookupA τ (es.foldl (chronicleStep turn year uuid) (p0, l0, cs0)).2.1 =
          lookupA τ l0)) ∧
    (es.foldl (chronicleStep turn year uuid) (p0, l0, cs0)).2.2.map ChronicleEntry.summary =
      cs0.map ChronicleEntry.summary ++
        (es.filter (fun e => canEmitChronicle turn e.2 (lookupA e.1 l0))).map
          (fun e => chronicleSummary e.1) := by
  induction es generalizing p0 l0 cs0 with
  | nil =>
    refine ⟨fun τ _ => ⟨rfl, rfl⟩, fun τ v h => absurd h (List.not_mem_nil _), ?_⟩
    simp
  | cons e rest ih =>
    obtain ⟨k, v⟩ := e
    simp only [List.map_cons, List.nodup_cons] at hnd
    have hknotin : k ∉ rest.map Prod.fst := hnd.1
    cases hc : canEmitChronicle turn v (lookupA k l0) with
    | true =>
      have hstep : chronicleStep turn year uuid (p0, l0, cs0) (k, v) =
          (setA k (v * 0.4) p0, setA k turn l0,
            cs0 ++ [mkChronicleEntry uuid cs0.length year k]) := by
        simp [chronicleStep, hc]
      obtain ⟨ih1, ih2, ih3⟩ := ih (setA k (v * 0.4) p0) (setA k turn l0)
        (cs0 ++ [mkChronicleEntry uuid cs0.length year k]) hnd.2
      rw [List.foldl_cons, hstep]
      refine ⟨?_, ?_, ?_⟩
      · intro τ hτ
        simp only [List.map_cons, List.mem_cons, not_or] at hτ
        have h := ih1 τ hτ.2
        exact ⟨by rw [h.1, lookupA_setA_ne _ _ hτ.1],
          by rw [h.2, lookupA_setA_ne _ _ hτ.1]⟩
      · intro τ v' hmem
        rcases List.mem_cons.mp hmem with h1 | h2
        · obtain ⟨hτ, hv'⟩ := Prod.mk.injEq .. ▸ h1
          subst hτ
          subst hv'
          have h := ih1 τ hknotin
          constructor
          · intro _
            exact ⟨by rw [h.1, lookupA_setA_self],
              by rw [h.2, lookupA_setA_self]⟩
          · intro hfalse
            rw [hc] at hfalse
            exact absurd hfalse (by simp)
        · have hτk : τ ≠ k := by
            intro he
            exact hknotin (he ▸ List.mem_map_of_mem Prod.fst h2)
          have hl : lookupA τ (setA k turn l0) = lookupA τ l0 :=
            lookupA_setA_ne _ _ hτk
          have h := ih2 τ v' h2
          rw [hl] at h
          constructor
          · intro ht
            exact h.1 ht
          · intro hf
            have h3 := h.2 hf
            exact ⟨by rw [h3.1, lookupA_setA_ne _ _ hτk], by rw [h3.2]⟩
      · rw [ih3]
        have hfg : rest.filter
            (fun e => canEmitChronicle turn e.2 (lookupA e.1 (setA k turn l0))) =
            rest.filter (fun e => canEmitChronicle turn e.2 (lookupA e.1 l0)) := by
          refine List.filter_congr ?_
          intro e he
          have hek : e.1 ≠ k := by
            intro heq
            exact hknotin (heq ▸ List.mem_map_of_mem Prod.fst he)
          rw [lookupA_setA_ne _ _ hek]
        rw [hfg, List.filter_cons]
        simp [hc, mkChronicleEntry]
    | false =>
      have hstep : chronicleStep turn year uuid (p0, l0, cs0) (k, v) = (p0, l0, cs0) := by
        simp [chronicleStep, hc]
      obtain ⟨ih1, ih2, ih3⟩ := ih p0 l0 cs0 hnd.2
      rw [List.foldl_cons, hstep]
      refine ⟨?_, ?_, ?_⟩
      · intro τ hτ
        simp only [List.map_cons, List.mem_cons, not_or] at hτ
        exact ih1 τ hτ.2
      · intro τ v' hmem
        rcases List.mem_cons.mp hmem with h1 | h2
        · obtain ⟨hτ, hv'⟩ := Prod.mk.injEq .. ▸ h1
          subst hτ
          subst hv'
          constructor
          · intro ht
            rw [hc] at ht
            exact absurd ht (by simp)
          · intro _
            exact ih1 τ hknotin
        · exact ih2 τ v' h2
      · rw [ih3, List.filter_cons]
        simp [hc]

/-- Concrete world for the C1 example: FEAR pressure exactly at the
2.0 threshold at turn 5, with the last FEAR chronicle at turn 1. -/
def c1World5 : ExtendedWorldState :=
  { year := 1, turn := 5, logs := [], meanings := [], echoes := [], chronicles := [],
    tendency := [], meaningPressure := [(MeaningType.FEAR, 2)],
    lastChronicleTurn := [(MeaningType.FEAR, 1)] }

/-- The follow-up call one turn later: pressure regrown to 2.0, last
FEAR chronicle now at turn 5. -/
def c1World6 : ExtendedWorldState :=
  { c1World5 with turn := 6, lastChronicleTurn := [(MeaningType.FEAR, 5)] }

/-- C1: `generateChronicleFromPressure` emits exactly one chronicle per
type whose pressure is at or over `2.0` and whose last chronicle is at
least 3 turns old (never-emitted counts as infinitely old), multiplies
each emitted type's pressure by `0.4` and stamps its last-chronicle
turn, leaving all other types unchanged; FEAR at pressure 2.0 on turn 5
with last chronicle at turn 1 emits and leaves pressure 0.8, while the
regrown call on turn 6 emits nothing. -/
theorem C1_generateChronicleFromPressure_spec :
    (∀ (uuid : ℕ → String) (world : ExtendedWorldState),
      (world.meaningPressure.map Prod.fst).Nodup →
      (∀ τ v, lookupA τ world.meaningPressure = some v →
        (canEmitChronicle world.turn v (lookupA τ world.lastChronicleTurn) = true →
          lookupA τ (generateChronicleFromPressure uuid world).1.meaningPressure =
            some (v * 0.4) ∧
          lookupA τ (generateChronicleFromPressure uuid world).1.lastChronicleTurn =
            some world.turn) ∧
        (canEmitChronicle world.turn v (lookupA τ world.lastChronicleTurn) = false →
          lookupA τ (generateChronicleFromPressure uuid world).1.meaningPressure =
            some v ∧
          lookupA τ (generateChronicleFromPressure uuid world).1.lastChronicleTurn =
            lookupA τ world.lastChronicleTurn)) ∧
      (∀ τ, lookupA τ world.meaningPressure = none →
        lookupA τ (generateChronicleFromPressure uuid world).1.meaningPressure = none ∧
        lookupA τ (generateChronicleFromPressure uuid world).1.lastChronicleTurn =
          lookupA τ world.lastChronicleTurn) ∧
      (generateChronicleFromPressure uuid world).2.map ChronicleEntry.summary =
        (world.meaningPressure.filter (fun e =>
          canEmitChronicle world.turn e.2 (lookupA e.1 world.lastChronicleTurn))).map
          (fun e => chronicleSummary e.1)) ∧
    ((generateChronicleFromPressure (fun _ => "") c1World5).2.length = 1 ∧
      lookupA MeaningType.FEAR
        (generateChronicleFromPressure (fun _ => "") c1World5).1.meaningPressure =
        some 0.8) ∧
    ((generateChronicleFromPressure (fun _ => "") c1World6).2 = [] ∧
      lookupA MeaningType.FEAR
        (generateChronicleFromPressure (fun _ => "") c1World6).1.meaningPressure =
        some 2) := by
  have hmain : ∀ (uuid : ℕ → String) (world : ExtendedWorldState),
      (world.meaningPressure.map Prod.fst).Nodup →
      (∀ τ v, lookupA τ world.meaningPressure = some v →
        (canEmitChronicle world.turn v (lookupA τ world.lastChronicleTurn) = true →
          lookupA τ (generateChronicleFromPressure uuid world).1.meaningPressure =
            some (v * 0.4) ∧
          lookupA τ (generateChronicleFromPressure uuid world).1.lastChronicleTurn =
            some world.turn) ∧
        (canEmitChronicle world.turn v (lookupA τ world.lastChronicleTurn) = false →
          lookupA τ (generateChronicleFromPressure uuid world).1.meaningPressure =
            some v ∧
          lookupA τ (generateChronicleFromPressure uuid world).1.lastChronicleTurn =
            lookupA τ world.lastChronicleTurn)) ∧
      (∀ τ, lookupA τ world.meaningPressure = none →
        lookupA τ (generateChronicleFromPressure uuid world).1.meaningPressure = none ∧
        lookupA τ (generateChronicleFromPressure uuid world).1.lastChronicleTurn =
          lookupA τ world.lastChronicleTurn) ∧
      (generateChronicleFromPressure uuid world).2.map ChronicleEntry.summary =
        (world.meaningPressure.filter (fun e =>
          canEmitChronicle world.turn e.2 (lookupA e.1 world.lastChronicleTurn))).map
          (fun e => chronicleSummary e.1) := by
    intro uuid world hnd
    obtain ⟨hf1, hf2, hf3⟩ := chronicleFold_spec world.turn world.year uuid
      world.meaningPressure world.meaningPressure world.lastChronicleTurn [] hnd
    refine ⟨?_, ?_, ?_⟩
    · intro τ v hv
      have h := hf2 τ v (lookupA_mem hv)
      constructor
      · intro ht
        exact (h.1 ht)
      · intro hfse
        have h2 := h.2 hfse
        exact ⟨by rw [show lookupA τ
            (generateChronicleFromPressure uuid world).1.meaningPressure =
            lookupA τ (world.meaningPressure.foldl
              (chronicleStep world.turn world.year uuid)
              (world.meaningPressure, world.lastChronicleTurn, [])).1 from rfl,
            h2.1, hv], h2.2⟩
    · intro τ hv
      have hτ : τ ∉ world.meaningPressure.map Prod.fst := lookupA_eq_none_iff.mp hv
      have h := hf1 τ hτ
      exact ⟨by rw [show lookupA τ
          (generateChronicleFromPressure uuid world).1.meaningPressure =
          lookupA τ (world.meaningPressure.foldl
            (chronicleStep world.turn world.year uuid)
            (world.meaningPressure, world.lastChronicleTurn, [])).1 from rfl,
          h.1, hv], h.2⟩
    · rw [show (generateChronicleFromPressure uuid world).2 =
        (world.meaningPressure.foldl (chronicleStep world.turn world.year uuid)
          (world.meaningPressure, world.lastChronicleTurn, [])).2.2 from rfl, hf3]
      simp
  refine ⟨hmain, ?_, ?_⟩
  · have h := hmain (fun _ => "") c1World5 (by decide)
    have hc5 : canEmitChronicle 5 2 (some 1) = true := by
      norm_num [canEmitChronicle, CHRONICLE_THRESHOLD, MIN_CHRONICLE_GAP]
    have h1 := (h.1 MeaningType.FEAR 2 rfl).1 hc5
    constructor
    · have h3 := h.2.2
      rw [show (c1World5.meaningPressure.filter (fun e =>
          canEmitChronicle c1World5.turn e.2 (lookupA e.1 c1World5.lastChronicleTurn))) =
          [(MeaningType.FEAR, 2)] by
        simp [c1World5, List.filter_cons, hc5]] at h3
      have h4 : ((generateChronicleFromPressure (fun _ => "") c1World5).2.map
          ChronicleEntry.summary).length = 1 := by
        rw [h3]
        rfl
      rw [List.length_map] at h4
      exact h4
    · rw [h1.1]
      norm_num
  · have h := hmain (fun _ => "") c1World6 (by decide)
    have hc6 : canEmitChronicle 6 2 (some 5) = false := by
      norm_num [canEmitChronicle, CHRONICLE_THRESHOLD, MIN_CHRONICLE_GAP]
    have h1 := (h.1 MeaningType.FEAR 2 rfl).2 hc6
    constructor
    · have h3 := h.2.2
      rw [show (c1World6.meaningPressure.filter (fun e =>
          canEmitChronicle c1World6.turn e.2 (lookupA e.1 c1World6.lastChronicleTurn))) =
          ([] : List (MeaningType × ℚ)) by
        simp [c1World6, c1World5, List.filter_cons, hc6]] at h3
      simp only [List.map_nil] at h3
      exact List.map_eq_nil_iff.mp h3
    · exact h1.1

/-- Witness for C1: applying the general statement to the concrete
turn-5 world discharges its hypotheses. -/
theorem C1_generateChronicleFromPressure_spec_witness :
    lookupA MeaningType.FEAR
      (generateChronicleFromPressure (fun _ => "") c1World5).1.meaningPressure =
      some (2 * 0.4) ∧
    lookupA MeaningType.FEAR
      (generateChronicleFromPressure (fun _ => "") c1World5).1.lastChronicleTurn =
      some (5 : ℤ) := by
  have h := C1_generateChronicleFromPressure_spec.1 (fun _ => "") c1World5 (by decide)
  exact (h.1 MeaningType.FEAR 2 rfl).1
    (show canEmitChronicle 5 2 (some 1) = true by
      norm_num [canEmitChronicle, CHRONICLE_THRESHOLD, MIN_CHRONICLE_GAP])

/-- Concrete world for the C3 witness: one negative echo, two pressure
entries. -/
def c3World : ExtendedWorldState :=
  { year := 1, turn := 1, logs := [], meanings := [],
    echoes := [⟨"echo-1", "m-1", EchoTone.negative, 0, 2, ⟨none, some "LOCAL"⟩⟩],
    chronicles := [], tendency := [],
    meaningPressure := [(MeaningType.FEAR, 1), (MeaningType.TRUST, 3)],
    lastChronicleTurn := [] }

/-- Witness for C3: the single negative echo lifts FEAR pressure from
`1` to `1.08`. -/
theorem C3_applyEchoToPressure_spec_witness :
    lookupA MeaningType.FEAR (applyEchoToPressure c3World).meaningPressure =
      some 1.08 ∧
    lookupA MeaningType.RESPECT (applyEchoToPressure c3World).meaningPressure = none := by
  have h := C3_applyEchoToPressure_spec c3World (by decide)
  constructor
  · have h1 := h.2.1 MeaningType.FEAR 1 rfl
    rw [h1]
    norm_num [echoGain, c3World, TONE_FACTOR, echoSensitivity, DECAY_SENSITIVITY, lookupA]
  · exact h.2.2.1 MeaningType.RESPECT rfl

/-! ## C4: chronicle tendency adjustment -/

theorem setA_append_of_notMem {κ β : Type} [DecidableEq κ] {k : κ} (v : β)
    {l : List (κ × β)} (h : k ∉ l.map Prod.fst) : setA k v l = l ++ [(k, v)] := by
  induction l with
  | nil => rfl
  | cons hd t ih =>
    obtain ⟨a, b⟩ := hd
    simp only [List.map_cons, List.mem_cons, not_or] at h
    show (if a = k then (k, v) :: t else (a, b) :: setA k v t) = (a, b) :: t ++ [(k, v)]
    rw [if_neg (fun he => h.1 he.symm), ih h.2]
    rfl

theorem nodup_keys_setA {κ β : Type} [DecidableEq κ] {k : κ} (v : β)
    {l : List (κ × β)} (h : (l.map Prod.fst).Nodup) :
    ((setA k v l).map Prod.fst).Nodup := by
  by_cases hk : k ∈ l.map Prod.fst
  · rw [keys_setA_of_mem _ hk]
    exact h
  · rw [setA_append_of_notMem _ hk, List.map_append]
    refine List.Nodup.append h (List.nodup_singleton k) ?_
    intro a ha hb
    simp only [List.map_cons, List.map_nil, List.mem_singleton] at hb
    exact hk (hb ▸ ha)

/-- The weight the tag map of `applyChronicleTendency` assigns to a
tag (`0` for an absent tag), as a function of a tendency list. -/
def tagWeight (tendency : List WorldTendency) (tag : ActionTag) : ℚ :=
  (lookupA tag (buildTagMap tendency)).getD 0

theorem buildTagMapGo_of_nodup (ts : List WorldTendency) (acc : List (ActionTag × ℚ))
    (hd : ∀ t ∈ ts, t.tag ∉ acc.map Prod.fst)
    (hnd : (ts.map WorldTendency.tag).Nodup) :
    ts.foldl (fun map t => setA t.tag ((lookupA t.tag map).getD 0 + t.weight) map) acc =
      acc ++ ts.map (fun t => (t.tag, t.weight)) := by
  induction ts generalizing acc with
  | nil => simp
  | cons t rest ih =>
    simp only [List.map_cons, List.nodup_cons] at hnd
    rw [List.foldl_cons]
    have h1 : lookupA t.tag acc = (none : Option ℚ) :=
      lookupA_eq_none_iff.mpr (hd t (List.mem_cons_self _ _))
    rw [h1]
    simp only [Option.getD_none, zero_add]
    rw [setA_append_of_notMem _ (hd t (List.mem_cons_self _ _))]
    have hd2 : ∀ t' ∈ rest, t'.tag ∉ (acc ++ [(t.tag, t.weight)]).map Prod.fst := by
      intro t' ht' hmem
      rw [List.map_append] at hmem
      rcases List.mem_append.mp hmem with h | h
      · exact hd t' (List.mem_cons_of_mem _ ht') h
      · simp only [List.map_cons, List.map_nil, List.mem_singleton] at h
        exact hnd.1 (h ▸ List.mem_map_of_mem WorldTendency.tag ht')
    rw [ih _ hd2 hnd.2]
    simp

theorem buildTagMap_of_nodup (ts : List WorldTendency)
    (h : (ts.map WorldTendency.tag).Nodup) :
    buildTagMap ts = ts.map (fun t => (t.tag, t.weight)) := by
  have hgo := buildTagMapGo_of_nodup ts [] (by simp) h
  rw [List.nil_append] at hgo
  exact hgo

theorem buildTagMap_keys_nodup (ts : List WorldTendency) :
    ((buildTagMap ts).map Prod.fst).Nodup := by
  have h : ∀ acc : List (ActionTag × ℚ), (acc.map Prod.fst).Nodup →
      ((ts.foldl (fun map t =>
        setA t.tag ((lookupA t.tag map).getD 0 + t.weight) map) acc).map Prod.fst).Nodup := by
    induction ts with
    | nil => exact fun acc h => h
    | cons t rest ih => exact fun acc h => ih _ (nodup_keys_setA _ h)
  exact h [] (by simp)

theorem buildTagMap_roundtrip (m : List (ActionTag × ℚ)) (h : (m.map Prod.fst).Nodup) :
    buildTagMap (m.map (fun p => { tag := p.1, weight := p.2 })) = m := by
  have hnd : ((m.map (fun p => ({ tag := p.1, weight := p.2 } : WorldTendency))).map
      WorldTendency.tag).Nodup := by
    rw [List.map_map]
    exact h
  rw [buildTagMap_of_nodup _ hnd, List.map_map]
  have hid : ((fun t => (t.tag, t.weight)) ∘
      fun p : ActionTag × ℚ => ({ tag := p.1, weight := p.2 } : WorldTendency)) =
      fun p : ActionTag × ℚ => p := by
    funext p
    rfl
  rw [hid, List.map_id']

theorem tagWeight_map_pairs (m : List (ActionTag × ℚ)) (h : (m.map Prod.fst).Nodup)
    (tag : ActionTag) :
    tagWeight (m.map (fun p => { tag := p.1, weight := p.2 })) tag =
      (lookupA tag m).getD 0 := by
  unfold tagWeight
  rw [buildTagMap_roundtrip m h]

theorem lookupA_adjustTag_self (m : List (ActionTag × ℚ)) (tag : ActionTag) (δ : ℚ) :
    lookupA tag (adjustTag m tag δ) =
      some (max TENDENCY_MIN (min TENDENCY_MAX ((lookupA tag m).getD 0 + δ))) :=
  lookupA_setA_self _ _ _

theorem lookupA_adjustTag_ne (m : List (ActionTag × ℚ)) {tag tag' : ActionTag} (δ : ℚ)
    (h : tag' ≠ tag) : lookupA tag' (adjustTag m tag δ) = lookupA tag' m :=
  lookupA_setA_ne _ _ h

theorem adjustTag_keys_nodup (m : List (ActionTag × ℚ)) (tag : ActionTag) (δ : ℚ)
    (h : (m.map Prod.fst).Nodup) : ((adjustTag m tag δ).map Prod.fst).Nodup :=
  nodup_keys_setA _ h

theorem adjustTag_range (m : List (ActionTag × ℚ)) (tag : ActionTag) (δ : ℚ)
    (h : ∀ p ∈ m, TENDENCY_MIN ≤ p.2 ∧ p.2 ≤ TENDENCY_MAX) :
    ∀ p ∈ adjustTag m tag δ, TENDENCY_MIN ≤ p.2 ∧ p.2 ≤ TENDENCY_MAX := by
  intro p hp
  obtain ⟨a, b⟩ := p
  rcases mem_setA hp with h1 | h2
  · obtain ⟨h1a, h1b⟩ := h1
    simp only [h1b]
    constructor
    · exact le_max_left _ _
    · exact max_le (by norm_num [TENDENCY_MIN, TENDENCY_MAX]) (min_le_left _ _)
  · exact h _ h2

theorem applyFearCheck_range (m : List (ActionTag × ℚ)) (c : ChronicleEntry)
    (h : ∀ p ∈ m, TENDENCY_MIN ≤ p.2 ∧ p.2 ≤ TENDENCY_MAX) :
    ∀ p ∈ applyFearCheck m c, TENDENCY_MIN ≤ p.2 ∧ p.2 ≤ TENDENCY_MAX := by
  unfold applyFearCheck
  split
  · exact adjustTag_range _ _ _ (adjustTag_range _ _ _ h)
  · exact h

theorem applyTrustCheck_range (m : List (ActionTag × ℚ)) (c : ChronicleEntry)
    (h : ∀ p ∈ m, TENDENCY_MIN ≤ p.2 ∧ p.2 ≤ TENDENCY_MAX) :
    ∀ p ∈ applyTrustCheck m c, TENDENCY_MIN ≤ p.2 ∧ p.2 ≤ TENDENCY_MAX := by
  unfold applyTrustCheck
  split
  · exact adjustTag_range _ _ _ (adjustTag_range _ _ _ h)
  · exact h

theorem applyRespectCheck_range (m : List (ActionTag × ℚ)) (c : ChronicleEntry)
    (h : ∀ p ∈ m, TENDENCY_MIN ≤ p.2 ∧ p.2 ≤ TENDENCY_MAX) :
    ∀ p ∈ applyRespectCheck m c, TENDENCY_MIN ≤ p.2 ∧ p.2 ≤ TENDENCY_MAX := by
  unfold applyRespectCheck
  split
  · exact adjustTag_range _ _ _ h
  · exact h

theorem applyOneChronicle_range (m : List (ActionTag × ℚ)) (c : ChronicleEntry)
    (h : ∀ p ∈ m, TENDENCY_MIN ≤ p.2 ∧ p.2 ≤ TENDENCY_MAX) :
    ∀ p ∈ applyOneChronicle m c, TENDENCY_MIN ≤ p.2 ∧ p.2 ≤ TENDENCY_MAX :=
  applyRespectCheck_range _ _ (applyTrustCheck_range _ _ (applyFearCheck_range _ _ h))

theorem applyFearCheck_nodup (m : List (ActionTag × ℚ)) (c : ChronicleEntry)
    (h : (m.map Prod.fst).Nodup) : ((applyFearCheck m c).map Prod.fst).Nodup := by
  unfold applyFearCheck
  split
  · exact adjustTag_keys_nodup _ _ _ (adjustTag_keys_nodup _ _ _ h)
  · exact h

theorem applyTrustCheck_nodup (m : List (ActionTag × ℚ)) (c : ChronicleEntry)
    (h : (m.map Prod.fst).Nodup) : ((applyTrustCheck m c).map Prod.fst).Nodup := by
  unfold applyTrustCheck
  split
  · exact adjustTag_keys_nodup _ _ _ (adjustTag_keys_nodup _ _ _ h)
  · exact h

theorem applyRespectCheck_nodup (m : List (ActionTag × ℚ)) (c : ChronicleEntry)
    (h : (m.map Prod.fst).Nodup) : ((applyRespectCheck m c).map Prod.fst).Nodup := by
  unfold applyRespectCheck
  split
  · exact adjustTag_keys_nodup _ _ _ h
  · exact h

theorem applyOneChronicle_keys_nodup (m : List (ActionTag × ℚ)) (c : ChronicleEntry)
    (h : (m.map Prod.fst).Nodup) :
    ((applyOneChronicle m c).map Prod.fst).Nodup :=
  applyRespectCheck_nodup _ _ (applyTrustCheck_nodup _ _ (applyFearCheck_nodup _ _ h))

theorem chronicleFoldTendency_range (cs : List ChronicleEntry)
    (m : List (ActionTag × ℚ))
    (h : ∀ p ∈ m, TENDENCY_MIN ≤ p.2 ∧ p.2 ≤ TENDENCY_MAX) :
    ∀ p ∈ cs.foldl applyOneChronicle m, TENDENCY_MIN ≤ p.2 ∧ p.2 ≤ TENDENCY_MAX := by
  induction cs generalizing m with
  | nil => exact h
  | cons c rest ih => exact ih _ (applyOneChronicle_range m c h)

theorem chronicleFoldTendency_nodup (cs : List ChronicleEntry)
    (m : List (ActionTag × ℚ)) (h : (m.map Prod.fst).Nodup) :
    (((cs.foldl applyOneChronicle m)).map Prod.fst).Nodup := by
  induction cs generalizing m with
  | nil => exact h
  | cons c rest ih => exact ih _ (applyOneChronicle_keys_nodup m c h)

theorem applyChronicleTendency_cons (world : ExtendedWorldState) (c : ChronicleEntry)
    (cs : List ChronicleEntry) :
    (applyChronicleTendency world (c :: cs)).tendency =
      ((c :: cs).foldl applyOneChronicle (buildTagMap world.tendency)).map
        (fun p => { tag := p.1, weight := p.2 }) := by
  simp [applyChronicleTendency]

theorem applyOneChronicle_fear (m : List (ActionTag × ℚ)) (c : ChronicleEntry)
    (hsum : c.summary = chronicleSummary MeaningType.FEAR) :
    applyOneChronicle m c =
      adjustTag (adjustTag m ActionTag.RISKY (-0.10)) ActionTag.SAFE 0.08 := by
  have hf : strIncludes (toLowerString c.summary) "fear" = true := by
    rw [hsum]; decide
  have ht : strIncludes (toLowerString c.summary) "trust" = false := by
    rw [hsum]; decide
  have hr : strIncludes (toLowerString c.summary) "respect" = false := by
    rw [hsum]; decide
  simp [applyOneChronicle, applyFearCheck, applyTrustCheck, applyRespectCheck, hf, ht, hr]

theorem applyOneChronicle_trust (m : List (ActionTag × ℚ)) (c : ChronicleEntry)
    (hsum : c.summary = chronicleSummary MeaningType.TRUST) :
    applyOneChronicle m c =
      adjustTag (adjustTag m ActionTag.SOCIAL 0.08) ActionTag.PASSIVE (-0.04) := by
  have hf : strIncludes (toLowerString c.summary) "fear" = false := by
    rw [hsum]; decide
  have ht : strIncludes (toLowerString c.summary) "trust" = true := by
    rw [hsum]; decide
  have hr : strIncludes (toLowerString c.summary) "respect" = false := by
    rw [hsum]; decide
  simp [applyOneChronicle, applyFearCheck, applyTrustCheck, applyRespectCheck, hf, ht, hr]

theorem applyOneChronicle_respect (m : List (ActionTag × ℚ)) (c : ChronicleEntry)
    (hsum : c.summary = chronicleSummary MeaningType.RESPECT) :
    applyOneChronicle m c = adjustTag m ActionTag.AGGRESSIVE 0.05 := by
  have hf : strIncludes (toLowerString c.summary) "fear" = false := by
    rw [hsum]; decide
  have ht : strIncludes (toLowerString c.summary) "trust" = false := by
    rw [hsum]; decide
  have hr : strIncludes (toLowerString c.summary) "respect" = true := by
    rw [hsum]; decide
  simp [applyOneChronicle, applyFearCheck, applyTrustCheck, applyRespectCheck, hf, ht, hr]

theorem tagWeight_applyChronicleTendency_single (world : ExtendedWorldState)
    (c : ChronicleEntry) (tag : ActionTag) :
    tagWeight (applyChronicleTendency world [c]).tendency tag =
      (lookupA tag (applyOneChronicle (buildTagMap world.tendency) c)).getD 0 := by
  rw [applyChronicleTendency_cons,
    tagWeight_map_pairs _ (chronicleFoldTendency_nodup [c] _ (buildTagMap_keys_nodup _))]
  rfl

theorem tagWeight_applyChronicleTendency_pair (world : ExtendedWorldState)
    (c : ChronicleEntry) (tag : ActionTag) :
    tagWeight (applyChronicleTendency world [c, c]).tendency tag =
      (lookupA tag (applyOneChronicle
        (applyOneChronicle (buildTagMap world.tendency) c) c)).getD 0 := by
  rw [applyChronicleTendency_cons,
    tagWeight_map_pairs _ (chronicleFoldTendency_nodup [c, c] _ (buildTagMap_keys_nodup _))]
  rfl

/-- C4: a FEAR chronicle adjusts RISKY by −0.10 and SAFE by +0.08, a
TRUST chronicle SOCIAL by +0.08 and PASSIVE by −0.04, a RESPECT
chronicle AGGRESSIVE by +0.05, each update clamped to `[-0.6, 0.6]`
and other tags untouched; two chronicles in one call apply
cumulatively (clamping at each step); and on any world whose tendency
list has at most one entry per tag with weights in `[-0.6, 0.6]`,
every returned tendency weight stays in `[-0.6, 0.6]`. -/
theorem C4_applyChronicleTendency_spec :
    (∀ (world : ExtendedWorldState) (c : ChronicleEntry),
      c.summary = chronicleSummary MeaningType.FEAR →
      tagWeight (applyChronicleTendency world [c]).tendency ActionTag.RISKY =
        max TENDENCY_MIN (min TENDENCY_MAX
          (tagWeight world.tendency ActionTag.RISKY + (-0.10))) ∧
      tagWeight (applyChronicleTendency world [c]).tendency ActionTag.SAFE =
        max TENDENCY_MIN (min TENDENCY_MAX
          (tagWeight world.tendency ActionTag.SAFE + 0.08)) ∧
      ∀ tag, tag ≠ ActionTag.RISKY → tag ≠ ActionTag.SAFE →
        tagWeight (applyChronicleTendency world [c]).tendency tag =
          tagWeight world.tendency tag) ∧
    (∀ (world : ExtendedWorldState) (c : ChronicleEntry),
      c.summary = chronicleSummary MeaningType.TRUST →
      tagWeight (applyChronicleTendency world [c]).tendency ActionTag.SOCIAL =
        max TENDENCY_MIN (min TENDENCY_MAX
          (tagWeight world.tendency ActionTag.SOCIAL + 0.08)) ∧
      tagWeight (applyChronicleTendency world [c]).tendency ActionTag.PASSIVE =
        max TENDENCY_MIN (min TENDENCY_MAX
          (tagWeight world.tendency ActionTag.PASSIVE + (-0.04))) ∧
      ∀ tag, tag ≠ ActionTag.SOCIAL → tag ≠ ActionTag.PASSIVE →
        tagWeight (applyChronicleTendency world [c]).tendency tag =
          tagWeight world.tendency tag) ∧
    (∀ (world : ExtendedWorldState) (c : ChronicleEntry),
      c.summary = chronicleSummary MeaningType.RESPECT →
      tagWeight (applyChronicleTendency world [c]).tendency ActionTag.AGGRESSIVE =
        max TENDENCY_MIN (min TENDENCY_MAX
          (tagWeight world.tendency ActionTag.AGGRESSIVE + 0.05)) ∧
      ∀ tag, tag ≠ ActionTag.AGGRESSIVE →
        tagWeight (applyChronicleTendency world [c]).tendency tag =
          tagWeight world.tendency tag) ∧
    (∀ (world : ExtendedWorldState) (c : ChronicleEntry),
      c.summary = chronicleSummary MeaningType.FEAR →
      tagWeight (applyChronicleTendency world [c, c]).tendency ActionTag.RISKY =
        max TENDENCY_MIN (min TENDENCY_MAX
          (max TENDENCY_MIN (min TENDENCY_MAX
            (tagWeight world.tendency ActionTag.RISKY + (-0.10))) + (-0.10)))) ∧
    (∀ (world : ExtendedWorldState) (chronicles : List ChronicleEntry),
      (world.tendency.map WorldTendency.tag).Nodup →
      (∀ t ∈ world.tendency, TENDENCY_MIN ≤ t.weight ∧ t.weight ≤ TENDENCY_MAX) →
      ∀ t ∈ (applyChronicleTendency world chronicles).tendency,
        TENDENCY_MIN ≤ t.weight ∧ t.weight ≤ TENDENCY_MAX) := by
  refine ⟨?_, ?_, ?_, ?_, ?_⟩
  · intro world c hsum
    refine ⟨?_, ?_, ?_⟩
    · have h1 := tagWeight_applyChronicleTendency_single world c ActionTag.RISKY
      rw [applyOneChronicle_fear _ _ hsum,
        lookupA_adjustTag_ne _ _ (by decide), lookupA_adjustTag_self] at h1
      simp only [Option.getD_some] at h1
      exact h1
    · have h1 := tagWeight_applyChronicleTendency_single world c ActionTag.SAFE
      rw [applyOneChronicle_fear _ _ hsum, lookupA_adjustTag_self,
        lookupA_adjustTag_ne _ _ (by decide)] at h1
      simp only [Option.getD_some] at h1
      exact h1
    · intro tag htR htS
      have h1 := tagWeight_applyChronicleTendency_single world c tag
      rw [applyOneChronicle_fear _ _ hsum,
        lookupA_adjustTag_ne _ _ htS, lookupA_adjustTag_ne _ _ htR] at h1
      exact h1
  · intro world c hsum
    refine ⟨?_, ?_, ?_⟩
    · have h1 := tagWeight_applyChronicleTendency_single world c ActionTag.SOCIAL
      rw [applyOneChronicle_trust _ _ hsum,
        lookupA_adjustTag_ne _ _ (by decide), lookupA_adjustTag_self] at h1
      simp only [Option.getD_some] at h1
      exact h1
    · have h1 := tagWeight_applyChronicleTendency_single world c ActionTag.PASSIVE
      rw [applyOneChronicle_trust _ _ hsum, lookupA_adjustTag_self,
        lookupA_adjustTag_ne _ _ (by decide)] at h1
      simp only [Option.getD_some] at h1
      exact h1
    · intro tag htS htP
      have h1 := tagWeight_applyChronicleTendency_single world c tag
      rw [applyOneChronicle_trust _ _ hsum,
        lookupA_adjustTag_ne _ _ htP, lookupA_adjustTag_ne _ _ htS] at h1
      exact h1
  · intro world c hsum
    refine ⟨?_, ?_⟩
    · have h1 := tagWeight_applyChronicleTendency_single world c ActionTag.AGGRESSIVE
      rw [applyOneChronicle_respect _ _ hsum, lookupA_adjustTag_self] at h1
      simp only [Option.getD_some] at h1
      exact h1
    · intro tag htA
      have h1 := tagWeight_applyChronicleTendency_single world c tag
      rw [applyOneChronicle_respect _ _ hsum, lookupA_adjustTag_ne _ _ htA] at h1
      exact h1
  · intro world c hsum
    have h1 := tagWeight_applyChronicleTendency_pair world c ActionTag.RISKY
    rw [applyOneChronicle_fear _ _ hsum, applyOneChronicle_fear _ _ hsum,
      lookupA_adjustTag_ne _ _ (by decide), lookupA_adjustTag_self] at h1
    simp only [Option.getD_some] at h1
    rw [lookupA_adjustTag_ne _ _ (by decide : ActionTag.RISKY ≠ ActionTag.SAFE),
      lookupA_adjustTag_self] at h1
    simp only [Option.getD_some] at h1
    exact h1
  · intro world chronicles hnd hw
    cases chronicles with
    | nil =>
      intro t ht
      have h0 : applyChronicleTendency world [] = world := by
        simp [applyChronicleTendency]
      rw [h0] at ht
      exact hw t ht
    | cons c cs =>
      intro t ht
      rw [applyChronicleTendency_cons] at ht
      obtain ⟨p, hp, hpt⟩ := List.mem_map.mp ht
      have hm : ∀ q ∈ buildTagMap world.tendency,
          TENDENCY_MIN ≤ q.2 ∧ q.2 ≤ TENDENCY_MAX := by
        rw [buildTagMap_of_nodup _ hnd]
        intro q hq
        obtain ⟨t', ht', hq'⟩ := List.mem_map.mp hq
        rw [← hq']
        exact hw t' ht'
      have hres := chronicleFoldTendency_range (c :: cs) _ hm p hp
      rw [← hpt]
      exact hres

/-- Concrete world and chronicle for the C4 witness. -/
def c4World : ExtendedWorldState :=
  { year := 1, turn := 1, logs := [], meanings := [], echoes := [], chronicles := [],
    tendency := [⟨ActionTag.RISKY, 0.5⟩], meaningPressure := [],
    lastChronicleTurn := [] }

def c4Chron : ChronicleEntry :=
  ⟨"c-1", 1, chronicleSummary MeaningType.FEAR, [], ChronicleScope.LOCAL⟩

/-- Witness for C4 on a one-entry tendency list. -/
theorem C4_applyChronicleTendency_spec_witness :
    tagWeight (applyChronicleTendency c4World [c4Chron]).tendency ActionTag.RISKY =
      max TENDENCY_MIN (min TENDENCY_MAX
        (tagWeight c4World.tendency ActionTag.RISKY + (-0.10))) ∧
    ∀ t ∈ (applyChronicleTendency c4World [c4Chron]).tendency,
      TENDENCY_MIN ≤ t.weight ∧ t.weight ≤ TENDENCY_MAX :=
  ⟨(C4_applyChronicleTendency_spec.1 c4World c4Chron rfl).1,
    C4_applyChronicleTendency_spec.2.2.2.2 c4World [c4Chron] (by decide)
      (by
        intro t ht
        simp only [c4World, List.mem_singleton] at ht
        subst ht
        constructor <;> norm_num [TENDENCY_MIN, TENDENCY_MAX])⟩

/-! ## Meaning engine and turn orchestrator (`src/core/meaningEngine.ts`,
`src/core/engine.ts`) -/

/-- A meaning plugin: declares its type and evaluates this turn's
logs into meaning events. -/
structure MeaningPlugin where
  type : MeaningType
  evaluate : List ActionLog → List MeaningEvent

/-- The plugin registry; `evaluate` concatenates plugin outputs in
registration order (`flatMap`). -/
structure MeaningEngine where
  plugins : List MeaningPlugin

def MeaningEngine.evaluate (engine : MeaningEngine) (logs : List ActionLog) :
    List MeaningEvent :=
  (engine.plugins.map (fun p => p.evaluate logs)).flatten

/-- The ambient nondeterministic sources of `engine.ts`
(`crypto.randomUUID()`, `Math.random()`, `Date.now()`), modelled as
explicit streams, one per call site. -/
structure Ambient where
  uuidLog : ℕ → String
  uuidChron : ℕ → String
  uuidEcho : ℕ → String
  rand : ℕ → ℚ
  now : ℤ

/-- `executeAction`: the executed-record object literal.  Note: the
source builds `{ id, actorId, type, tags, timestamp }` and does not
copy `targetId`, so the log's `targetId` is always absent. -/
def executeAction (uuid : String) (timestamp : ℤ) (action : Action) : ActionLog :=
  { id := uuid
    actorId := action.actorId
    targetId := none
    type := action.type
    tags := action.tags
    timestamp := timestamp }

/-- `generateEchoes`: one echo per meaning event, tone negative for
FEAR and positive otherwise, ttl 3, local scope. -/
def generateEchoes (uuid : ℕ → String) (rand : ℕ → ℚ)
    (meanings : List MeaningEvent) : List Echo :=
  meanings.enum.map (fun im =>
    { id := uuid im.1
      originMeaningId := im.2.id
      tone := if im.2.type = MeaningType.FEAR then EchoTone.negative else EchoTone.positive
      distortion := rand im.1
      ttl := 3
      scope := { factionId := none, locationId := some "LOCAL" } })

/-- `updateEchoTTL`: age every echo by one and drop the dead. -/
def updateEchoTTL (echoes : List Echo) : List Echo :=
  (echoes.map (fun e => { e with ttl := e.ttl - 1 })).filter (fun e => decide (e.ttl > 0))

structure TurnResult where
  world : ExtendedWorldState
  logs : List ActionLog
  meanings : List MeaningEvent
  chronicles : List ChronicleEntry

/-- `simulateTurn`: the fixed per-turn pipeline. -/
def simulateTurn (amb : Ambient) (world : ExtendedWorldState) (actions : List Action)
    (meaningEngine : MeaningEngine) : TurnResult :=
  let logs := actions.enum.map (fun ia => executeAction (amb.uuidLog ia.1) amb.now ia.2)
  let meanings := meaningEngine.evaluate logs
  let nextWorld := accumulateMeaningPressure world meanings
  let nextWorld2 := applyEchoToPressure nextWorld
  let chronicleResult := generateChronicleFromPressure amb.uuidChron nextWorld2
  let worldAfterChronicle :=
    applyChronicleTendency chronicleResult.1 chronicleResult.2
  let chronicles := chronicleResult.2
  let echoes := generateEchoes amb.uuidEcho amb.rand meanings
  let updatedEchoes := updateEchoTTL (worldAfterChronicle.echoes ++ echoes)
  let newTurn := world.turn + 1
  let yearIncrement : ℤ := if newTurn % 10 = 0 then 1 else 0
  { world := { worldAfterChronicle with
      year := worldAfterChronicle.year + yearIncrement
      turn := newTurn
      logs := worldAfterChronicle.logs ++ logs
      meanings := worldAfterChronicle.meanings ++ meanings
      chronicles := worldAfterChronicle.chronicles ++ chronicles
      echoes := updatedEchoes }
    logs := logs
    meanings := meanings
    chronicles := chronicles }

/-! ## C6: the executed log drops the proposal's target -/

/-- C6 (code evaluation at the failing input): for a SPEAK proposal
targeting `npc-2`, the executed log preserves actorId, type and tags
but its `targetId` is absent, not `some "npc-2"` as the claim
requires. -/
theorem C6_executeAction_drops_targetId :
    (executeAction "log-1" 100
      ⟨"npc-1", some "npc-2", ActionType.SPEAK, [ActionTag.SOCIAL]⟩).targetId = none ∧
    (⟨"npc-1", some "npc-2", ActionType.SPEAK, [ActionTag.SOCIAL]⟩ : Action).targetId =
      some "npc-2" ∧
    (executeAction "log-1" 100
      ⟨"npc-1", some "npc-2", ActionType.SPEAK, [ActionTag.SOCIAL]⟩).targetId ≠
      (⟨"npc-1", some "npc-2", ActionType.SPEAK, [ActionTag.SOCIAL]⟩ : Action).targetId ∧
    (executeAction "log-1" 100
      ⟨"npc-1", some "npc-2", ActionType.SPEAK, [ActionTag.SOCIAL]⟩).actorId = "npc-1" ∧
    (executeAction "log-1" 100
      ⟨"npc-1", some "npc-2", ActionType.SPEAK, [ActionTag.SOCIAL]⟩).type =
      ActionType.SPEAK ∧
    (executeAction "log-1" 100
      ⟨"npc-1", some "npc-2", ActionType.SPEAK, [ActionTag.SOCIAL]⟩).tags =
      [ActionTag.SOCIAL] :=
  ⟨rfl, rfl, by decide, rfl, rfl, rfl⟩

/-! ## C10: echo lifetimes through a turn -/

theorem accumulateMeaningPressure_echoes (world : ExtendedWorldState)
    (meanings : List MeaningEvent) :
    (accumulateMeaningPressure world meanings).echoes = world.echoes := rfl

theorem applyEchoToPressure_echoes (world : ExtendedWorldState) :
    (applyEchoToPressure world).echoes = world.echoes := rfl

theorem generateChronicleFromPressure_echoes (uuid : ℕ → String)
    (world : ExtendedWorldState) :
    (generateChronicleFromPressure uuid world).1.echoes = world.echoes := rfl

theorem applyChronicleTendency_echoes (world : ExtendedWorldState)
    (chronicles : List ChronicleEntry) :
    (applyChronicleTendency world chronicles).echoes = world.echoes := by
  by_cases h : chronicles = [] <;> simp [applyChronicleTendency, h]

theorem updateEchoTTL_append (a b : List Echo) :
    updateEchoTTL (a ++ b) = updateEchoTTL a ++ updateEchoTTL b := by
  simp [updateEchoTTL, List.map_append, List.filter_append]

theorem updateEchoTTL_of_ttl_three (l : List Echo) (h : ∀ e ∈ l, e.ttl = 3) :
    updateEchoTTL l = l.map (fun e => { e with ttl := 2 }) := by
  induction l with
  | nil => rfl
  | cons e t ih =>
    have he : e.ttl = 3 := h e (List.mem_cons_self _ _)
    have ht : ∀ e' ∈ t, e'.ttl = 3 := fun e' h' => h e' (List.mem_cons_of_mem _ h')
    simp only [updateEchoTTL, List.map_cons, List.filter_cons] at ih ⊢
    rw [he]
    norm_num
    exact ih ht

theorem generateEchoes_ttl (uuid : ℕ → String) (rand : ℕ → ℚ)
    (meanings : List MeaningEvent) :
    ∀ e ∈ generateEchoes uuid rand meanings, e.ttl = 3 := by
  intro e he
  obtain ⟨im, _, heq⟩ := List.mem_map.mp he
  rw [← heq]

theorem mem_updateEchoTTL_ttl_pos (l : List Echo) :
    ∀ e ∈ updateEchoTTL l, 1 ≤ e.ttl := by
  intro e he
  have h := (List.mem_filter.mp he).2
  rw [decide_eq_true_eq] at h
  omega

/-- C10: every echo surviving `simulateTurn` has `ttl ≥ 1`, and the
returned echo set is exactly the aged previous echoes followed by this
turn's freshly spawned echoes with `ttl` exactly `2` (spawned at 3,
aged by one before the state is assembled). -/
theorem C10_simulateTurn_echo_ttl (amb : Ambient) (world : ExtendedWorldState)
    (actions : List Action) (meaningEngine : MeaningEngine) :
    (∀ e ∈ (simulateTurn amb world actions meaningEngine).world.echoes, 1 ≤ e.ttl) ∧
    (simulateTurn amb world actions meaningEngine).world.echoes =
      updateEchoTTL world.echoes ++
        (generateEchoes amb.uuidEcho amb.rand
          (simulateTurn amb world actions meaningEngine).meanings).map
          (fun e => { e with ttl := 2 }) := by
  have hmean : (simulateTurn amb world actions meaningEngine).meanings =
      meaningEngine.evaluate (actions.enum.map
        (fun ia => executeAction (amb.uuidLog ia.1) amb.now ia.2)) := rfl
  have hworld : (simulateTurn amb world actions meaningEngine).world.echoes =
      updateEchoTTL ((applyChronicleTendency
        (generateChronicleFromPressure amb.uuidChron
          (applyEchoToPressure (accumulateMeaningPressure world
            (meaningEngine.evaluate (actions.enum.map
              (fun ia => executeAction (amb.uuidLog ia.1) amb.now ia.2)))))).1
        (generateChronicleFromPressure amb.uuidChron
          (applyEchoToPressure (accumulateMeaningPressure world
            (meaningEngine.evaluate (actions.enum.map
              (fun ia => executeAction (amb.uuidLog ia.1) amb.now ia.2)))))).2).echoes ++
        generateEchoes amb.uuidEcho amb.rand
          (meaningEngine.evaluate (actions.enum.map
            (fun ia => executeAction (amb.uuidLog ia.1) amb.now ia.2)))) := rfl
  rw [applyChronicleTendency_echoes, generateChronicleFromPressure_echoes,
    applyEchoToPressure_echoes, accumulateMeaningPressure_echoes] at hworld
  constructor
  · intro e he
    rw [hworld, updateEchoTTL_append] at he
    rcases List.mem_append.mp he with h | h
    · exact mem_updateEchoTTL_ttl_pos _ e h
    · exact mem_updateEchoTTL_ttl_pos _ e h
  · rw [hworld, updateEchoTTL_append, hmean,
      updateEchoTTL_of_ttl_three _ (generateEchoes_ttl _ _ _)]

/-! ## C5: PageRank centrality (`socialGraph` module) -/

def PAGERANK_DAMPING : ℚ := 0.85

def PAGERANK_ITERATIONS : ℕ := 20

def PAGERANK_TOLERANCE : ℚ := 1e-6

/-- The incoming-edge contribution sum of one PageRank update; each
term is `weight × sourceRank / outDegree` with
`weight = 0.5 + 0.5 × ((trust + 1) / 2)`.  (Division is rational field
division; the source's out-degree is nonzero whenever the source node
lists the edge.) -/
def prContribution (graph : SocialGraphState) (ranks : List (String × ℚ))
    (node : CharacterNode) : ℚ :=
  node.incomingRelations.foldl (fun sum relId =>
    match lookupA relId graph.relationships with
    | some rel =>
        match lookupA rel.sourceId graph.nodes with
        | some sourceNode =>
            sum + (0.5 + 0.5 * ((rel.trust + 1) / 2)) *
              ((lookupA rel.sourceId ranks).getD 0) /
              (sourceNode.outgoingRelations.length : ℚ)
        | none => sum
    | none => sum) 0

/-- One node's new rank (`graph.nodes.get(nodeId)!` is modelled by a
default that is never used for ids drawn from the node map). -/
def prNewRank (graph : SocialGraphState) (ranks : List (String × ℚ)) (n : ℚ)
    (nodeId : String) : ℚ :=
  (1 - PAGERANK_DAMPING) / n + PAGERANK_DAMPING *
    prContribution graph ranks ((lookupA nodeId graph.nodes).getD ⟨nodeId, [], []⟩)

/-- The `newRanks` map of one iteration, in node order. -/
def prStep (graph : SocialGraphState) (nodeIds : List String)
    (ranks : List (String × ℚ)) : List (String × ℚ) :=
  nodeIds.map (fun nodeId =>
    (nodeId, prNewRank graph ranks (nodeIds.length : ℚ) nodeId))

/-- The `maxDiff` of one iteration (`if (diff > maxDiff)` is a running
maximum starting at 0). -/
def prMaxDiff (graph : SocialGraphState) (nodeIds : List String)
    (ranks : List (String × ℚ)) : ℚ :=
  nodeIds.foldl (fun maxDiff nodeId =>
    max maxDiff |prNewRank graph ranks (nodeIds.length : ℚ) nodeId -
      (lookupA nodeId ranks).getD 0|) 0

/-- The iteration loop: on convergence it breaks before copying
`newRanks`, returning the previous ranks. -/
def prLoop (graph : SocialGraphState) (nodeIds : List String) :
    ℕ → List (String × ℚ) → List (String × ℚ)
  | 0, ranks => ranks
  | fuel + 1, ranks =>
      if prMaxDiff graph nodeIds ranks < PAGERANK_TOLERANCE then ranks
      else prLoop graph nodeIds fuel (prStep graph nodeIds ranks)

/-- `calculatePageRank`: uniform start, at most 20 iterations, early
stop below tolerance; empty graph short-circuits to an empty result. -/
def calculatePageRank (graph : SocialGraphState) : List (String × ℚ) :=
  let nodeIds := graph.nodes.map Prod.fst
  if nodeIds.length = 0 then []
  else prLoop graph nodeIds PAGERANK_ITERATIONS
    (nodeIds.map (fun id => (id, 1 / (nodeIds.length : ℚ))))

theorem prLoop_spec (graph : SocialGraphState) (nodeIds : List String) :
    ∀ (fuel : ℕ) (ranks : List (String × ℚ)),
      ∃ k ≤ fuel,
        prLoop graph nodeIds fuel ranks =
          (fun r => prStep graph nodeIds r)^[k] ranks ∧
        (k < fuel →
          prMaxDiff graph nodeIds ((fun r => prStep graph nodeIds r)^[k] ranks) <
            PAGERANK_TOLERANCE) ∧
        ∀ j < k, PAGERANK_TOLERANCE ≤
          prMaxDiff graph nodeIds ((fun r => prStep graph nodeIds r)^[j] ranks) := by
  intro fuel
  induction fuel with
  | zero =>
    intro ranks
    exact ⟨0, le_refl 0, rfl, fun h => absurd h (lt_irrefl 0),
      fun j hj => absurd hj (Nat.not_lt_zero j)⟩
  | succ fuel ih =>
    intro ranks
    by_cases hc : prMaxDiff graph nodeIds ranks < PAGERANK_TOLERANCE
    · refine ⟨0, Nat.zero_le _, ?_, ?_, ?_⟩
      · show prLoop graph nodeIds (fuel + 1) ranks = ranks
        simp [prLoop, hc]
      · intro _
        simpa using hc
      · intro j hj
        exact absurd hj (Nat.not_lt_zero j)
    · obtain ⟨k, hk, heq, hstop, hall⟩ := ih (prStep graph nodeIds ranks)
      refine ⟨k + 1, Nat.succ_le_succ hk, ?_, ?_, ?_⟩
      · show prLoop graph nodeIds (fuel + 1) ranks = _
        rw [show prLoop graph nodeIds (fuel + 1) ranks =
          (if prMaxDiff graph nodeIds ranks < PAGERANK_TOLERANCE then ranks
            else prLoop graph nodeIds fuel (prStep graph nodeIds ranks)) from rfl]
        rw [if_neg hc, heq, ← Function.iterate_succ_apply]
      · intro hlt
        have h := hstop (Nat.lt_of_succ_lt_succ hlt)
        rw [Function.iterate_succ_apply]
        exact h
      · intro j hj
        cases j with
        | zero => simpa using not_lt.mp hc
        | succ j' =>
          have h := hall j' (Nat.lt_of_succ_lt_succ hj)
          rw [Function.iterate_succ_apply]
          exact h

/-- A one-node, no-relationship graph. -/
def c5SingletonGraph (id : String) : SocialGraphState := ⟨[(id, ⟨id, [], []⟩)], []⟩

theorem prNewRank_singleton (id : String) (r : List (String × ℚ)) :
    prNewRank (c5SingletonGraph id) r (([id].length : ℚ)) id = 0.15 := by
  norm_num [prNewRank, prContribution, c5SingletonGraph, lookupA, PAGERANK_DAMPING]

/-- C5: a single isolated node converges to rank `0.15 = (1−0.85)/1`;
the empty graph returns an empty result directly; and in general the
result is the pure iteration stopped at the first index below the
`1e-6` tolerance, capped at 20 iterations. -/
theorem C5_calculatePageRank_spec :
    (∀ id : String, calculatePageRank (c5SingletonGraph id) = [(id, 0.15)]) ∧
    calculatePageRank ⟨[], []⟩ = [] ∧
    (∀ graph : SocialGraphState, graph.nodes ≠ [] →
      ∃ k ≤ PAGERANK_ITERATIONS,
        calculatePageRank graph =
          (fun r => prStep graph (graph.nodes.map Prod.fst) r)^[k]
            ((graph.nodes.map Prod.fst).map
              (fun id => (id, 1 / ((graph.nodes.map Prod.fst).length : ℚ)))) ∧
        (k < PAGERANK_ITERATIONS →
          prMaxDiff graph (graph.nodes.map Prod.fst)
            ((fun r => prStep graph (graph.nodes.map Prod.fst) r)^[k]
              ((graph.nodes.map Prod.fst).map
                (fun id => (id, 1 / ((graph.nodes.map Prod.fst).length : ℚ))))) <
            PAGERANK_TOLERANCE) ∧
        ∀ j < k, PAGERANK_TOLERANCE ≤
          prMaxDiff graph (graph.nodes.map Prod.fst)
            ((fun r => prStep graph (graph.nodes.map Prod.fst) r)^[j]
              ((graph.nodes.map Prod.fst).map
                (fun id => (id, 1 / ((graph.nodes.map Prod.fst).length : ℚ)))))) := by
  refine ⟨?_, rfl, ?_⟩
  · intro id
    have hcal : calculatePageRank (c5SingletonGraph id) =
        prLoop (c5SingletonGraph id) [id] PAGERANK_ITERATIONS [(id, 1)] := by
      norm_num [calculatePageRank, c5SingletonGraph]
    have hmd1 : prMaxDiff (c5SingletonGraph id) [id] [(id, 1)] = 0.85 := by
      show max 0 |prNewRank (c5SingletonGraph id) [(id, 1)] (([id].length : ℚ)) id -
        (lookupA id [(id, 1)]).getD 0| = 0.85
      rw [prNewRank_singleton,
        show (lookupA id [(id, (1 : ℚ))]).getD 0 = 1 by simp [lookupA],
        show |(0.15 : ℚ) - 1| = 0.85 by
          rw [abs_sub_comm, abs_of_nonneg (by norm_num : (0 : ℚ) ≤ 1 - 0.15)]
          norm_num]
      exact max_eq_right (by norm_num)
    have hstep1 : prStep (c5SingletonGraph id) [id] [(id, 1)] = [(id, 0.15)] := by
      show [(id, prNewRank (c5SingletonGraph id) [(id, 1)] (([id].length : ℚ)) id)] =
        [(id, 0.15)]
      rw [prNewRank_singleton]
    have hmd2 : prMaxDiff (c5SingletonGraph id) [id] [(id, 0.15)] = 0 := by
      show max 0 |prNewRank (c5SingletonGraph id) [(id, 0.15)] (([id].length : ℚ)) id -
        (lookupA id [(id, 0.15)]).getD 0| = 0
      rw [prNewRank_singleton,
        show (lookupA id [(id, (0.15 : ℚ))]).getD 0 = 0.15 by simp [lookupA]]
      norm_num
    have hloop : prLoop (c5SingletonGraph id) [id] PAGERANK_ITERATIONS [(id, 1)] =
        [(id, 0.15)] := by
      rw [show PAGERANK_ITERATIONS = 19 + 1 from rfl]
      rw [show prLoop (c5SingletonGraph id) [id] (19 + 1) [(id, 1)] =
        (if prMaxDiff (c5SingletonGraph id) [id] [(id, 1)] < PAGERANK_TOLERANCE then
          [(id, (1 : ℚ))]
        else prLoop (c5SingletonGraph id) [id] 19
          (prStep (c5SingletonGraph id) [id] [(id, 1)])) from rfl]
      rw [hmd1, if_neg (by norm_num [PAGERANK_TOLERANCE]), hstep1]
      rw [show (19 : ℕ) = 18 + 1 from rfl]
      rw [show prLoop (c5SingletonGraph id) [id] (18 + 1) [(id, 0.15)] =
        (if prMaxDiff (c5SingletonGraph id) [id] [(id, 0.15)] < PAGERANK_TOLERANCE then
          [(id, (0.15 : ℚ))]
        else prLoop (c5SingletonGraph id) [id] 18
          (prStep (c5SingletonGraph id) [id] [(id, 0.15)])) from rfl]
      rw [hmd2, if_pos (by norm_num [PAGERANK_TOLERANCE])]
    exact hcal.trans hloop
  · intro graph hne
    have h0 : ¬ ((graph.nodes.map Prod.fst).length = 0) := by
      intro h
      rw [List.length_map, List.length_eq_zero] at h
      exact hne h
    have hcal : calculatePageRank graph =
        prLoop graph (graph.nodes.map Prod.fst) PAGERANK_ITERATIONS
          ((graph.nodes.map Prod.fst).map
            (fun id => (id, 1 / ((graph.nodes.map Prod.fst).length : ℚ)))) := by
      rw [show calculatePageRank graph =
        (if (graph.nodes.map Prod.fst).length = 0 then []
          else prLoop graph (graph.nodes.map Prod.fst) PAGERANK_ITERATIONS
            ((graph.nodes.map Prod.fst).map
              (fun id => (id, 1 / ((graph.nodes.map Prod.fst).length : ℚ))))) from rfl]
      rw [if_neg h0]
    obtain ⟨k, hk, heq, hstop, hall⟩ := prLoop_spec graph (graph.nodes.map Prod.fst)
      PAGERANK_ITERATIONS
      ((graph.nodes.map Prod.fst).map
        (fun id => (id, 1 / ((graph.nodes.map Prod.fst).length : ℚ))))
    exact ⟨k, hk, hcal.trans heq, hstop, hall⟩

/-- Witness for C5: the general stopping characterization applied to
the concrete one-node graph. -/
theorem C5_calculatePageRank_spec_witness :
    ∃ k ≤ PAGERANK_ITERATIONS,
      calculatePageRank (c5SingletonGraph "A") =
        (fun r => prStep (c5SingletonGraph "A")
          ((c5SingletonGraph "A").nodes.map Prod.fst) r)^[k]
          (((c5SingletonGraph "A").nodes.map Prod.fst).map
            (fun id => (id, 1 / (((c5SingletonGraph "A").nodes.map Prod.fst).length : ℚ)))) ∧
      (k < PAGERANK_ITERATIONS →
        prMaxDiff (c5SingletonGraph "A") ((c5SingletonGraph "A").nodes.map Prod.fst)
          ((fun r => prStep (c5SingletonGraph "A")
            ((c5SingletonGraph "A").nodes.map Prod.fst) r)^[k]
            (((c5SingletonGraph "A").nodes.map Prod.fst).map
              (fun id => (id, 1 / (((c5SingletonGraph "A").nodes.map Prod.fst).length : ℚ))))) <
          PAGERANK_TOLERANCE) ∧
      ∀ j < k, PAGERANK_TOLERANCE ≤
        prMaxDiff (c5SingletonGraph "A") ((c5SingletonGraph "A").nodes.map Prod.fst)
          ((fun r => prStep (c5SingletonGraph "A")
            ((c5SingletonGraph "A").nodes.map Prod.fst) r)^[j]
            (((c5SingletonGraph "A").nodes.map Prod.fst).map
              (fun id => (id, 1 / (((c5SingletonGraph "A").nodes.map Prod.fst).length : ℚ))))) :=
  C5_calculatePageRank_spec.2.2 (c5SingletonGraph "A") (by decide)

end WorldEngine
